import Mathlib

/-!
# The 4D42 telemetry block parser (`main.cpp`)

A shallow embedding of `get_target_type`, `parse_4d42_block` and
`find_and_parse_4d42`, together with the parts of the C++ runtime they rely on:

* the packed `TargetInfo` record (`#pragma pack(push, 1)`), read from raw bytes;
* the formatting state of a `std::ostream` (`std::hex`, `std::dec`, `std::setw`,
  `std::setfill`), so that what one insertion leaves behind is visible to the next;
* `std::search` over a byte vector;
* exceptions, kept next to the stream so that text written before a `throw`
  is not lost from the model.

Bytes are `Fin 256`.  A read outside the memory a pointer refers to is undefined
behaviour in C++; here it is the outcome `Exn.out_of_bounds`, which no `catch`
handles.
-/

namespace Radar4D42

/-! ## Bytes and the packed record -/

/-- One `uint8_t`. -/
abbrev Byte := Fin 256

/-- The members of `struct TargetInfo`, in declaration order. -/
inductive Field
  | target_id
  | vertical_distance
  | lateral_distance
  | speed_y
  | target_type
  | lane_number
  | front_spacing
  | front_time_interval
  | speed_x
  | heading_angle
  | events
  | radar_x
  | radar_y
  | blind_mark
  | car_length
  | car_width
  deriving DecidableEq, Repr

/-- Width in bytes of each member: `uint8_t` is 1, `int16_t` is 2, `int32_t` is 4. -/
def Field.width : Field → Nat
  | .target_id => 1
  | .vertical_distance => 2
  | .lateral_distance => 2
  | .speed_y => 2
  | .target_type => 1
  | .lane_number => 1
  | .front_spacing => 2
  | .front_time_interval => 2
  | .speed_x => 2
  | .heading_angle => 2
  | .events => 1
  | .radar_x => 4
  | .radar_y => 4
  | .blind_mark => 1
  | .car_length => 1
  | .car_width => 1

/-- The member list of `struct TargetInfo`, as declared (lines 10-27). -/
def TargetInfo_fields : List Field :=
  [.target_id, .vertical_distance, .lateral_distance, .speed_y, .target_type,
   .lane_number, .front_spacing, .front_time_interval, .speed_x, .heading_angle,
   .events, .radar_x, .radar_y, .blind_mark, .car_length, .car_width]

/-- With `#pragma pack(push, 1)` members are laid out back to back: the offset of
a member is the total width of the members declared before it. -/
def offsetof (f : Field) : Nat :=
  ((TargetInfo_fields.takeWhile fun g => decide (g ≠ f)).map Field.width).sum

/-- The value of `sizeof(TargetInfo)` under `#pragma pack(push, 1)`: the widths
added up, with no padding. -/
def sizeof_TargetInfo : Nat :=
  (TargetInfo_fields.map Field.width).sum

/-- A decoded `TargetInfo`.  The `uint8_t` members are bytes, the `int16_t` and
`int32_t` members are integers. -/
structure TargetInfo where
  target_id : Byte
  vertical_distance : Int
  lateral_distance : Int
  speed_y : Int
  target_type : Byte
  lane_number : Byte
  front_spacing : Int
  front_time_interval : Int
  speed_x : Int
  heading_angle : Int
  events : Byte
  radar_x : Int
  radar_y : Int
  blind_mark : Byte
  car_length : Byte
  car_width : Byte
  deriving DecidableEq, Repr

/-- Read of a `uint8_t` member at byte offset `off`. -/
def read_u8 (mem : List Byte) (off : Nat) : Option Byte :=
  mem[off]?

/-- Read of an `int16_t` member at byte offset `off`: two bytes in host order
(little-endian), as a two's-complement number. -/
def read_i16 (mem : List Byte) (off : Nat) : Option Int :=
  match mem[off]?, mem[off + 1]? with
  | some b0, some b1 =>
    let u := b0.val + 256 * b1.val
    some (if u < 32768 then (u : Int) else (u : Int) - 65536)
  | _, _ => none

/-- Read of an `int32_t` member at byte offset `off`: four bytes in host order
(little-endian), as a two's-complement number. -/
def read_i32 (mem : List Byte) (off : Nat) : Option Int :=
  match mem[off]?, mem[off + 1]?, mem[off + 2]?, mem[off + 3]? with
  | some b0, some b1, some b2, some b3 =>
    let u := b0.val + 256 * b1.val + 65536 * b2.val + 16777216 * b3.val
    some (if u < 2147483648 then (u : Int) else (u : Int) - 4294967296)
  | _, _, _, _ => none

/-- The object `targets[i]` of line 74, where `targets` is the payload pointer
reinterpreted as `const TargetInfo*`: the record occupying the bytes
`i * sizeof(TargetInfo) ..< (i + 1) * sizeof(TargetInfo)` of `targets`.
It is `none` when one of those bytes is outside the memory. -/
def TargetInfo_at (targets : List Byte) (i : Nat) : Option TargetInfo :=
  let base := i * sizeof_TargetInfo
  match read_u8 targets (base + offsetof .target_id),
        read_i16 targets (base + offsetof .vertical_distance),
        read_i16 targets (base + offsetof .lateral_distance),
        read_i16 targets (base + offsetof .speed_y),
        read_u8 targets (base + offsetof .target_type),
        read_u8 targets (base + offsetof .lane_number),
        read_i16 targets (base + offsetof .front_spacing),
        read_i16 targets (base + offsetof .front_time_interval) with
  | some id, some vd, some ld, some sy, some ty, some ln, some fs, some ft =>
    match read_i16 targets (base + offsetof .speed_x),
          read_i16 targets (base + offsetof .heading_angle),
          read_u8 targets (base + offsetof .events),
          read_i32 targets (base + offsetof .radar_x),
          read_i32 targets (base + offsetof .radar_y),
          read_u8 targets (base + offsetof .blind_mark),
          read_u8 targets (base + offsetof .car_length),
          read_u8 targets (base + offsetof .car_width) with
    | some sx, some ha, some ev, some rx, some ry, some bm, some cl, some cw =>
      some ⟨id, vd, ld, sy, ty, ln, fs, ft, sx, ha, ev, rx, ry, bm, cl, cw⟩
    | _, _, _, _, _, _, _, _ => none
  | _, _, _, _, _, _, _, _ => none

/-! ## The output stream -/

/-- The `basefield` of a stream: set by `std::dec` and `std::hex`. -/
inductive Basefield
  | dec
  | hex
  deriving DecidableEq, Repr

/-- A `std::ostream`: the characters written so far and the formatting state that
the insertions of this program read or change. -/
structure OStream where
  buf : String
  basefield : Basefield
  fill : Char
  width : Nat
  deriving DecidableEq, Repr

/-- A newly opened stream: nothing written, decimal, fill `' '`, width 0. -/
def OStream.fresh : OStream :=
  ⟨"", .dec, ' ', 0⟩

/-- Every formatted insertion ends the same way: the text is right-adjusted in
the current field width with the fill character, and the width returns to 0. -/
def OStream.emit (os : OStream) (s : String) : OStream :=
  { os with
    buf := os.buf ++ String.mk (List.replicate (os.width - s.length) os.fill) ++ s
    width := 0 }

/-- The insertion `os << s` for a string literal or a `std::string`. -/
def OStream.put_str (os : OStream) (s : String) : OStream :=
  os.emit s

/-- The insertion `os << n` for an `int`: decimal with a sign under `std::dec`,
the 32-bit two's-complement pattern in lower-case hexadecimal under `std::hex`. -/
def OStream.put_int (os : OStream) (n : Int) : OStream :=
  match os.basefield with
  | .dec => os.emit (toString n)
  | .hex => os.emit (String.mk (Nat.toDigits 16 (n % 4294967296).toNat))

/-- The insertion `os << n` for a `size_t`. -/
def OStream.put_size_t (os : OStream) (n : Nat) : OStream :=
  match os.basefield with
  | .dec => os.emit (Nat.repr n)
  | .hex => os.emit (String.mk (Nat.toDigits 16 n))

/-- The text of a `double` that is `raw / 10.0`, in the default floating-point
format with precision 6 (the `%g` conversion): at most five significant digits
are needed for a 16-bit `raw`, so the value is printed exactly, a fractional
digit only when it is not zero. -/
def fmt_tenths (raw : Int) : String :=
  (if raw < 0 then "-" else "") ++ Nat.repr (raw.natAbs / 10) ++
    (if raw.natAbs % 10 = 0 then "" else "." ++ Nat.repr (raw.natAbs % 10))

/-- The insertion `os << raw / 10.0` for an `int16_t raw`.  The base of the
stream does not apply to floating-point output. -/
def OStream.put_tenths (os : OStream) (raw : Int) : OStream :=
  os.emit (fmt_tenths raw)

/-- The manipulator `std::hex`. -/
def OStream.hex (os : OStream) : OStream :=
  { os with basefield := .hex }

/-- The manipulator `std::dec`. -/
def OStream.dec (os : OStream) : OStream :=
  { os with basefield := .dec }

/-- The manipulator `std::setw(n)`. -/
def OStream.setw (os : OStream) (n : Nat) : OStream :=
  { os with width := n }

/-- The manipulator `std::setfill(c)`. -/
def OStream.setfill (os : OStream) (c : Char) : OStream :=
  { os with fill := c }

/-! ## Exceptions -/

/-- What can end a call early: a `std::invalid_argument` with its `what()` text,
or a read outside the memory the pointer refers to (undefined behaviour). -/
inductive Exn
  | invalid_argument (what : String)
  | out_of_bounds
  deriving DecidableEq, Repr

/-- The stream after a call and the exception that left it, if any. -/
structure Outcome where
  os : OStream
  exn : Option Exn
  deriving DecidableEq, Repr

/-! ## The program -/

/-- The function `get_target_type` (lines 30-39). -/
def get_target_type (type : Byte) : String :=
  match type.val with
  | 0 => "Small car"
  | 1 => "Pedestrian"
  | 2 => "Non-motor vehicles"
  | 3 => "Medium-sized car"
  | 4 => "Large car"
  | n => "Unknown (" ++ Nat.repr n ++ ")"

/-- The body of the loop of `parse_4d42_block` (lines 74-95) for one record. -/
def print_target (os : OStream) (t : TargetInfo) : OStream :=
  let os := os.put_str "Target "
  let os := os.put_int t.target_id.val
  let os := os.put_str ":\n"
  let os := os.put_str "  Vertical: "
  let os := os.put_tenths t.vertical_distance
  let os := os.put_str " m\n"
  let os := os.put_str "  Lateral: "
  let os := os.put_tenths t.lateral_distance
  let os := os.put_str " m\n"
  let os := os.put_str "  Speed Y: "
  let os := os.put_tenths t.speed_y
  let os := os.put_str " m/s\n"
  let os := os.put_str "  Type: "
  let os := os.put_str (get_target_type t.target_type)
  let os := os.put_str "\n"
  let os := os.put_str "  Lane: "
  let os :=
    if t.lane_number.val ≥ 1 ∧ t.lane_number.val ≤ 8 then
      os.put_int t.lane_number.val
    else
      ((os.put_str "Invalid (").put_int t.lane_number.val).put_str ")"
  let os := os.put_str "\n  Front space: "
  let os := os.put_tenths t.front_spacing
  let os := os.put_str " m\n"
  let os := os.put_str "  Front time: "
  let os := os.put_tenths t.front_time_interval
  let os := os.put_str " s\n"
  let os := os.put_str "  Speed X: "
  let os := os.put_tenths t.speed_x
  let os := os.put_str " m/s\n"
  let os := os.put_str "  Heading: "
  let os := os.put_tenths t.heading_angle
  let os := os.put_str " deg\n"
  let os := os.put_str "  Events: 0x"
  let os := os.hex
  let os := os.setw 2
  let os := os.setfill '0'
  let os := os.put_int t.events.val
  let os := os.put_str "\n"
  let os := os.dec
  os.put_str "----------------\n"

/-- The loop `for (size_t i = 0; i < num_targets; ++i)` of lines 73-96, entered
at index `i` with `remaining = num_targets - i` iterations to go. -/
def for_targets (targets : List Byte) : (remaining : Nat) → (i : Nat) → OStream → Outcome
  | 0, _, os => ⟨os, none⟩
  | remaining + 1, i, os =>
    match TargetInfo_at targets i with
    | none => ⟨os, some .out_of_bounds⟩
    | some t => for_targets targets remaining (i + 1) (print_target os t)

/-- The function `parse_4d42_block` (lines 51-97).  `data` is the memory from the
pointer argument to the end of the buffer it points into, `size` the `size`
argument.  `size - 4` is evaluated only after `size < 4` has been excluded and
`data_length - 2` only after `data_length < 2` has, so neither wraps. -/
def parse_4d42_block (data : List Byte) (size : Nat) (os : OStream) : Outcome :=
  if size < 4 then ⟨os, some (.invalid_argument "Invalid block size")⟩ else
  match data[0]? with
  | none => ⟨os, some .out_of_bounds⟩
  | some d0 =>
    if d0.val ≠ 0x4D then ⟨os, some (.invalid_argument "Not a 4D42 block")⟩ else
    match data[1]? with
    | none => ⟨os, some .out_of_bounds⟩
    | some d1 =>
      if d1.val ≠ 0x42 then ⟨os, some (.invalid_argument "Not a 4D42 block")⟩ else
      match data[3]?, data[2]? with
      | some d3, some d2 =>
        let data_length := ((d3.val <<< 8) ||| d2.val) % 65536
        if data_length < 2 ∨ data_length > size - 4 then
          ⟨os, some (.invalid_argument "Invalid data length")⟩
        else
          let payload := data.drop 4
          let payload_size := data_length - 2
          let num_targets := payload_size / sizeof_TargetInfo
          let os :=
            if num_targets > 128 then
              ((os.put_str "Warning: Invalid number of targets (").put_size_t
                num_targets).put_str "), truncating to 128\n"
            else os
          let num_targets := if num_targets > 128 then 128 else num_targets
          let os := ((os.put_str "Found ").put_size_t num_targets).put_str " targets:\n"
          for_targets payload num_targets 0 os
      | _, _ => ⟨os, some .out_of_bounds⟩

/-- The algorithm `std::search(first, last, s_first, s_last)`, as the distance
from `first` of the iterator it returns: the start of the first occurrence of
`pattern` in `data`, or `data.length` (the iterator `last`) when there is none. -/
def std_search (data pattern : List Byte) : Nat :=
  match data with
  | [] => 0
  | b :: rest => if pattern.isPrefixOf (b :: rest) then 0 else std_search rest pattern + 1

/-- The marker `pattern` of line 100. -/
def pattern : List Byte := [0x4D, 0x42]

/-- The function `find_and_parse_4d42` (lines 99-120) with the call of line 116
left open: `parse` stands for the decoder that is called there. -/
def find_and_parse_4d42_with (parse : List Byte → Nat → OStream → Outcome)
    (data : List Byte) (os : OStream) : Outcome :=
  let it := std_search data pattern
  if it = data.length then ⟨os.put_str "4D42 block not found\n", none⟩ else
  let offset := it
  if data.length - offset < 4 then ⟨os.put_str "Incomplete 4D42 header\n", none⟩ else
  match parse (data.drop offset) (data.length - offset) os with
  | ⟨os, some (.invalid_argument what)⟩ =>
    ⟨((os.put_str "Error parsing block: ").put_str what).put_str "\n", none⟩
  | r => r

/-- The function `find_and_parse_4d42` (lines 99-120). -/
def find_and_parse_4d42 (data : List Byte) (os : OStream) : Outcome :=
  find_and_parse_4d42_with parse_4d42_block data os

/-! ## Vocabulary of the statements

Names for what the specification talks about: the declared length and the payload
slice of a block, the records of a payload, the text of a record.  None of them is
used by the program above. -/

/-- The text one record contributes to the report. -/
def target_text (t : TargetInfo) : String :=
  (print_target OStream.fresh t).buf

/-- The records `first ..< first + count` of `targets`, those that lie inside it. -/
def records (targets : List Byte) (first count : Nat) : List TargetInfo :=
  (List.range' first count).filterMap (TargetInfo_at targets)

/-- The texts of a list of records, one after another. -/
def groups_text (ts : List TargetInfo) : String :=
  (ts.map target_text).foldr (fun a b => a ++ b) ""

/-- The declared length of a block: bytes 2 and 3 as a little-endian 16-bit number. -/
def declared_length (block : List Byte) : Nat :=
  (block.getD 2 0).val + 256 * (block.getD 3 0).val

/-- The payload slice `block[4 .. 4 + (declared_length - 2)]`. -/
def payload_of (block : List Byte) : List Byte :=
  (block.drop 4).take (declared_length block - 2)

/-- The warning of line 66 for an original count `m`. -/
def warning_text (m : Nat) : String :=
  "Warning: Invalid number of targets (" ++ Nat.repr m ++ "), truncating to 128\n"

/-- The marker bytes `0x4D 0x42` stand at index `i` of `data`. -/
def marker_at (data : List Byte) (i : Nat) : Prop :=
  data[i]? = some 0x4D ∧ data[i + 1]? = some 0x42

/-- Header validation of `parse_4d42_block` (lines 52-59) lets `block` through
when `block` is passed with its own length as `size`. -/
def accepted (block : List Byte) : Prop :=
  4 ≤ block.length ∧ block[0]? = some 0x4D ∧ block[1]? = some 0x42 ∧
    2 ≤ declared_length block ∧ declared_length block ≤ block.length - 4

/-- Acceptance is a decidable condition on the bytes. -/
instance accepted_decidable (block : List Byte) : Decidable (accepted block) := by
  unfold accepted
  infer_instance

/-- What section 4.2, step 2 of the specification prescribes for a payload slice:
`N = floor(len(payload) / record_size)`, a warning and `N = 128` when `N > 128`,
then the records of the slice at the offsets `i * record_size`. -/
def report_of_payload (payload : List Byte) : String :=
  (if payload.length / sizeof_TargetInfo > 128 then
      warning_text (payload.length / sizeof_TargetInfo) else "") ++
    "Found " ++ Nat.repr (min (payload.length / sizeof_TargetInfo) 128) ++ " targets:\n" ++
    groups_text (records payload 0 (min (payload.length / sizeof_TargetInfo) 128))

/-- The text after "  Lane: " for a lane byte `v` (specification, section 4.2,
step 3): the plain number inside 1..8, "Invalid (v)" outside. -/
def lane_text (v : Byte) : String :=
  if 1 ≤ v.val ∧ v.val ≤ 8 then Nat.repr v.val else "Invalid (" ++ Nat.repr v.val ++ ")"

/-- A byte as two hexadecimal digits: the high nibble, then the low nibble. -/
def hex2 (v : Byte) : String :=
  String.mk [Nat.digitChar (v.val / 16), Nat.digitChar (v.val % 16)]

/-- The twelve lines of one record group, in the order of section 6 of the
specification, without their line ends. -/
def target_lines (t : TargetInfo) : List String :=
  ["Target " ++ Nat.repr t.target_id.val ++ ":",
   "  Vertical: " ++ fmt_tenths t.vertical_distance ++ " m",
   "  Lateral: " ++ fmt_tenths t.lateral_distance ++ " m",
   "  Speed Y: " ++ fmt_tenths t.speed_y ++ " m/s",
   "  Type: " ++ get_target_type t.target_type,
   "  Lane: " ++ lane_text t.lane_number,
   "  Front space: " ++ fmt_tenths t.front_spacing ++ " m",
   "  Front time: " ++ fmt_tenths t.front_time_interval ++ " s",
   "  Speed X: " ++ fmt_tenths t.speed_x ++ " m/s",
   "  Heading: " ++ fmt_tenths t.heading_angle ++ " deg",
   "  Events: 0x" ++ hex2 t.events,
   "----------------"]

/-- Lines written one after another, each followed by a line end. -/
def unlines (ls : List String) : String :=
  (ls.map fun l => l ++ "\n").foldr (fun a b => a ++ b) ""

/-- The number of line ends in a text. -/
def newlines (s : String) : Nat :=
  s.data.count '\n'

/-- The value of a decimal digit character. -/
def digit_value (c : Char) : Nat :=
  c.toNat - 48

/-- The number a string of decimal digits denotes. -/
def decimal_value (s : String) : Nat :=
  s.data.foldl (fun acc c => 10 * acc + digit_value c) 0

/-- The count `M = floor(len(payload) / record_size)` of whole records in the
payload of a block. -/
def record_count (block : List Byte) : Nat :=
  (payload_of block).length / sizeof_TargetInfo

/-- The number `N = min(M, 128)` of records that are decoded. -/
def decoded_count (block : List Byte) : Nat :=
  min (record_count block) 128

/-- The records the decoder reads from a block, in payload order. -/
def decoded (block : List Byte) : List TargetInfo :=
  records (block.drop 4) 0 (decoded_count block)

/-- The head of a report: the truncation warning when `M > 128`, then the
"Found N targets:" line. -/
def report_head (block : List Byte) : String :=
  (if 128 < record_count block then warning_text (record_count block) else "") ++
    "Found " ++ Nat.repr (decoded_count block) ++ " targets:\n"

/-- The value of a hexadecimal digit character, lower case. -/
def hex_digit_value (c : Char) : Nat :=
  if c.toNat < 58 then c.toNat - 48 else c.toNat - 87

/-- The number a string of hexadecimal digits denotes. -/
def hex_value (s : String) : Nat :=
  s.data.foldl (fun acc c => 16 * acc + hex_digit_value c) 0

/-- A record with target type 9, lane 0 and events `0x0A`. -/
def sample_record : TargetInfo :=
  ⟨7, 125, -1, -32768, 9, 0, 5, 10, -10, 32767, 0x0A, 0, 0, 1, 2, 3⟩

/-- The signed 16-bit number of two bytes, low byte first. -/
def s16 (b0 b1 : Byte) : Int :=
  if b0.val + 256 * b1.val < 32768 then ((b0.val + 256 * b1.val : Nat) : Int)
  else ((b0.val + 256 * b1.val : Nat) : Int) - 65536

/-- The signed 32-bit number of four bytes, low byte first. -/
def s32 (b0 b1 b2 b3 : Byte) : Int :=
  if b0.val + 256 * b1.val + 65536 * b2.val + 16777216 * b3.val < 2147483648 then
    ((b0.val + 256 * b1.val + 65536 * b2.val + 16777216 * b3.val : Nat) : Int)
  else ((b0.val + 256 * b1.val + 65536 * b2.val + 16777216 * b3.val : Nat) : Int) - 4294967296

/-- The field table of section 3 of the specification applied to the bytes of one
record: `target_id` at offset 0, `vertical_distance` at 1-2, `lateral_distance` at
3-4, `speed_y` at 5-6, `target_type` at 7, `lane_number` at 8, `front_spacing` at
9-10, `front_time_interval` at 11-12, `speed_x` at 13-14, `heading_angle` at 15-16,
`events` at 17, `radar_x` at 18-21, `radar_y` at 22-25, `blind_mark` at 26,
`car_length` at 27, `car_width` at 28. -/
def record_of_bytes (b : List Byte) : TargetInfo where
  target_id := b.getD 0 0
  vertical_distance := s16 (b.getD 1 0) (b.getD 2 0)
  lateral_distance := s16 (b.getD 3 0) (b.getD 4 0)
  speed_y := s16 (b.getD 5 0) (b.getD 6 0)
  target_type := b.getD 7 0
  lane_number := b.getD 8 0
  front_spacing := s16 (b.getD 9 0) (b.getD 10 0)
  front_time_interval := s16 (b.getD 11 0) (b.getD 12 0)
  speed_x := s16 (b.getD 13 0) (b.getD 14 0)
  heading_angle := s16 (b.getD 15 0) (b.getD 16 0)
  events := b.getD 17 0
  radar_x := s32 (b.getD 18 0) (b.getD 19 0) (b.getD 20 0) (b.getD 21 0)
  radar_y := s32 (b.getD 22 0) (b.getD 23 0) (b.getD 24 0) (b.getD 25 0)
  blind_mark := b.getD 26 0
  car_length := b.getD 27 0
  car_width := b.getD 28 0

/-- The bytes of record `i` of a payload: the slice
`payload[i * record_size ..< (i + 1) * record_size]`. -/
def record_bytes (payload : List Byte) (i : Nat) : List Byte :=
  (payload.drop (i * sizeof_TargetInfo)).take sizeof_TargetInfo

/-! ## Floating point: the quotient `x / 10.0` and its insertion

The seven scaled members are written as `os << t.member / 10.0`: the `int16_t`
is promoted to `int`, converted to `double` (exactly), divided by `10.0` in IEEE 754
binary64 with rounding to nearest, ties to even, and the quotient is written in
the default floating-point format, which is the `%g` conversion with precision 6.
`fmt_tenths` above is the text this produces for a 16-bit numerator; the
definitions below are the two steps themselves, and `fmt_tenths` is proved equal
to their composition on that range. -/

/-- The quotient `num / den` rounded to the nearest integer, ties to even. -/
def round_half_even (num den : Nat) : Nat :=
  if 2 * (num % den) < den then num / den
  else if den < 2 * (num % den) then num / den + 1
  else if (num / den) % 2 = 0 then num / den else num / den + 1

/-- A finite `double` of magnitude at most `2 ^ 53`: the sign and the magnitude
`mant / 2 ^ shift`. -/
structure Double where
  neg : Bool
  mant : Nat
  shift : Nat
  deriving DecidableEq, Repr

/-- The largest `s` not above the start with `n * 2 ^ s < 10 * 2 ^ 53`, searched
downward: with `s` from 56 it is the scale at which the quotient `n / 10` has a
53-bit significand, `2 ^ 52 <= n * 2 ^ s / 10 < 2 ^ 53`. -/
def find_shift (n : Nat) : (fuel : Nat) → (s : Nat) → Nat
  | 0, s => s
  | fuel + 1, s => if n * 2 ^ s < 10 * 2 ^ 53 then s else find_shift n fuel (s - 1)

/-- The binary64 quotient `a / 10.0` for an `int a`: the significand is the
quotient at the 53-bit scale, rounded to nearest, ties to even. -/
def div_by_ten (a : Int) : Double :=
  if a = 0 then ⟨false, 0, 0⟩ else
  ⟨decide (a < 0), round_half_even (a.natAbs * 2 ^ find_shift a.natAbs 56 56) 10,
    find_shift a.natAbs 56 56⟩

/-- The decimal digits of `n`, with zeros in front up to `w` digits. -/
def pad_digits (w n : Nat) : List Char :=
  List.replicate (w - (Nat.toDigits 10 n).length) '0' ++ Nat.toDigits 10 n

/-- A digit string without its trailing zeros. -/
def strip_zeros (cs : List Char) : List Char :=
  (cs.reverse.dropWhile fun c => c == '0').reverse

/-- The decimal exponent of `m / 2 ^ s`: the greatest `x`, searched downward from
the start, with `10 ^ x <= m / 2 ^ s`. -/
def dec_exp (m s : Nat) : (fuel : Nat) → (x : Int) → Int
  | 0, x => x
  | fuel + 1, x =>
    if (if 0 ≤ x then 10 ^ x.toNat * 2 ^ s ≤ m else 2 ^ s ≤ m * 10 ^ (-x).toNat) then x
    else dec_exp m s fuel (x - 1)

/-- The value `m / 2 ^ s` in units of `10 ^ (x - 5)`, rounded to nearest, ties to
even: its six significant digits when `x` is its decimal exponent. -/
def six_digits (m s : Nat) (x : Int) : Nat :=
  if x ≤ 5 then round_half_even (m * 10 ^ (5 - x).toNat) (2 ^ s)
  else round_half_even m (2 ^ s * 10 ^ (x - 5).toNat)

/-- The `%g` conversion with precision 6, which `operator<<(double)` uses in the
default floating-point format: six significant digits, correctly rounded; with `X`
the decimal exponent after rounding, style `e` when `X < -4` or `X >= 6` and
style `f` with `5 - X` decimals otherwise; trailing zeros of the fraction removed,
and the decimal point with them when nothing is left. -/
def fmt_g6 (d : Double) : String :=
  if d.mant = 0 then (if d.neg then "-0" else "0") else
  let x0 := dec_exp d.mant d.shift 400 16
  let d0 := six_digits d.mant d.shift x0
  let x := if d0 = 1000000 then x0 + 1 else x0
  let dg := if d0 = 1000000 then 100000 else d0
  let sign := if d.neg then "-" else ""
  if x < -4 ∨ 6 ≤ x then
    let frac := strip_zeros (pad_digits 5 (dg % 100000))
    sign ++ Nat.repr (dg / 100000) ++ (if frac = [] then "" else "." ++ String.mk frac) ++
      "e" ++ (if x < 0 then "-" else "+") ++ String.mk (pad_digits 2 x.natAbs)
  else
    let frac := strip_zeros (pad_digits (5 - x).toNat (dg % 10 ^ (5 - x).toNat))
    sign ++ Nat.repr (dg / 10 ^ (5 - x).toNat) ++
      (if frac = [] then "" else "." ++ String.mk frac)

/-- The decimal exponent of `n / 10` for `1 <= n < 100000`. -/
def exp_tenths (n : Nat) : Int :=
  if 10000 ≤ n then 3 else if 1000 ≤ n then 2 else if 100 ≤ n then 1
  else if 10 ≤ n then 0 else -1

/-- The binary scale of `n / 10` for `1 <= n < 40960`. -/
def shift_tenths (n : Nat) : Nat :=
  if 20480 ≤ n then 41 else if 10240 ≤ n then 42 else if 5120 ≤ n then 43
  else if 2560 ≤ n then 44 else if 1280 ≤ n then 45 else if 640 ≤ n then 46
  else if 320 ≤ n then 47 else if 160 ≤ n then 48 else if 80 ≤ n then 49
  else if 40 ≤ n then 50 else if 20 ≤ n then 51 else if 10 ≤ n then 52
  else if 5 ≤ n then 53 else if 3 ≤ n then 54 else if 2 ≤ n then 55 else 56

/-! ## Sample inputs -/

/-- A block with one record: header `4D 42 1F 00`, a 29-byte record, two more bytes. -/
def block_one_record : List Byte :=
  [0x4D, 0x42, 31, 0,
   7, 125, 0, 0xFF, 0xFF, 0x00, 0x80, 9, 0, 5, 0, 10, 0, 0xF6, 0xFF, 0xFF, 0x7F, 0x0A,
   1, 2, 3, 4, 5, 6, 7, 8, 1, 2, 3,
   0, 0]

/-- A block whose payload has `2 * 44` bytes: header `4D 42 5A 00` and 90 zero bytes. -/
def block_two_by_44 : List Byte :=
  0x4D :: 0x42 :: 90 :: 0 :: List.replicate 90 0

/-- A buffer with two markers: the first, at offset 1, heads a block that is
rejected (declared length 0); a well-formed block follows at offset 5. -/
def two_markers : List Byte :=
  [9, 0x4D, 0x42, 0, 0, 0x4D, 0x42, 2, 0, 0, 0]

/-- A block with 129 records of zero bytes: header `4D 42 9F 0E` (declared length
`129 * 29 + 2 = 3743`) and 3743 more bytes. -/
def block_129_records : List Byte :=
  0x4D :: 0x42 :: 0x9F :: 0x0E :: List.replicate 3743 0

/-- The block `block_one_record` with other bytes in `radar_x`, `radar_y`,
`blind_mark`, `car_length`, `car_width` and after the payload. -/
def block_one_record_variant : List Byte :=
  [0x4D, 0x42, 31, 0,
   7, 125, 0, 0xFF, 0xFF, 0x00, 0x80, 9, 0, 5, 0, 10, 0, 0xF6, 0xFF, 0xFF, 0x7F, 0x0A,
   0xAA, 0xBB, 0xCC, 0xDD, 0xEE, 0xFF, 0x11, 0x22, 0x33, 0x44, 0x55,
   0x66, 0x77]

/-! ## Sanity checks of the embedding on concrete inputs -/

example : sizeof_TargetInfo = 29 := by decide
example : offsetof .events = 17 := by decide
example : fmt_tenths 125 = "12.5" := by decide
example : fmt_tenths (-1) = "-0.1" := by decide
example : (find_and_parse_4d42 [1, 2, 3] OStream.fresh).os.buf = "4D42 block not found\n" := by
  decide
example : (find_and_parse_4d42 [0x4D, 0x42, 2, 0, 0, 0] OStream.fresh).os.buf
    = "Found 0 targets:\n" := by
  decide

set_option maxRecDepth 100000 in
example : (parse_4d42_block block_one_record block_one_record.length OStream.fresh).os.buf =
    "Found 1 targets:\nTarget 7:\n  Vertical: 12.5 m\n  Lateral: -0.1 m\n" ++
    "  Speed Y: -3276.8 m/s\n  Type: Unknown (9)\n  Lane: Invalid (0)\n" ++
    "  Front space: 0.5 m\n  Front time: 1 s\n  Speed X: -1 m/s\n" ++
    "  Heading: 3276.7 deg\n  Events: 0x0a\n----------------\n" := by
  decide

example : div_by_ten 1 = ⟨false, 7205759403792794, 56⟩ := by decide!
example : div_by_ten 3 = ⟨false, 5404319552844595, 54⟩ := by decide!
example : fmt_g6 (div_by_ten 125) = "12.5" := by decide!
example : fmt_g6 (div_by_ten (-32768)) = "-3276.8" := by decide!
example : fmt_g6 ⟨false, 1, 20⟩ = "9.53674e-07" := by decide!
example : fmt_g6 ⟨false, 123456789, 0⟩ = "1.23457e+08" := by decide!
example : fmt_g6 ⟨false, 9999995, 1⟩ = "5e+06" := by decide!
example : fmt_g6 ⟨false, 999999, 0⟩ = "999999" := by decide!
example : fmt_g6 ⟨false, 1, 13⟩ = "0.00012207" := by decide!
example : fmt_g6 ⟨false, 1, 14⟩ = "6.10352e-05" := by decide!

/-! ## Lemmas -/

theorem data_length_eq (d2 d3 : Byte) :
    ((d3.val <<< 8) ||| d2.val) % 65536 = d2.val + 256 * d3.val := by
  have h2 : d2.val < 2 ^ 8 := d2.isLt
  have h3 : d3.val < 256 := d3.isLt
  rw [Nat.shiftLeft_eq, Nat.mul_comm, ← Nat.mul_add_lt_is_or h2]
  omega

theorem sizeof_TargetInfo_eq : sizeof_TargetInfo = 29 := by decide

theorem mk_replicate_zero (c : Char) : String.mk (List.replicate 0 c) = "" := rfl

theorem emit_width_zero (os : OStream) (s : String) (hw : os.width = 0) :
    os.emit s = { os with buf := os.buf ++ s } := by
  cases os with
  | mk buf bf fill width =>
    simp only at hw
    subst hw
    simp [OStream.emit, mk_replicate_zero]

theorem print_target_eq (os : OStream) (t : TargetInfo)
    (hb : os.basefield = .dec) (hw : os.width = 0) :
    print_target os t = ⟨os.buf ++ target_text t, .dec, '0', 0⟩ := by
  cases os with
  | mk buf bf fill width =>
    simp only at hb hw
    subst hb hw
    simp only [target_text, print_target, OStream.fresh, OStream.put_str, OStream.put_int,
      OStream.put_tenths, OStream.emit, OStream.hex, OStream.dec, OStream.setw, OStream.setfill]
    split <;> simp [mk_replicate_zero, String.append_assoc]


theorem offsetof_values :
    offsetof .target_id = 0 ∧ offsetof .vertical_distance = 1 ∧
    offsetof .lateral_distance = 3 ∧ offsetof .speed_y = 5 ∧ offsetof .target_type = 7 ∧
    offsetof .lane_number = 8 ∧ offsetof .front_spacing = 9 ∧
    offsetof .front_time_interval = 11 ∧ offsetof .speed_x = 13 ∧
    offsetof .heading_angle = 15 ∧ offsetof .events = 17 ∧ offsetof .radar_x = 18 ∧
    offsetof .radar_y = 22 ∧ offsetof .blind_mark = 26 ∧ offsetof .car_length = 27 ∧
    offsetof .car_width = 28 := by
  decide

theorem read_u8_take (mem : List Byte) (m off : Nat) (h : off + 1 ≤ m) :
    read_u8 (mem.take m) off = read_u8 mem off := by
  have h0 : off < m := by omega
  simp [read_u8, List.getElem?_take, h0]

theorem read_i16_take (mem : List Byte) (m off : Nat) (h : off + 2 ≤ m) :
    read_i16 (mem.take m) off = read_i16 mem off := by
  have h0 : off < m := by omega
  have h1 : off + 1 < m := by omega
  simp [read_i16, List.getElem?_take, h0, h1]

theorem read_i32_take (mem : List Byte) (m off : Nat) (h : off + 4 ≤ m) :
    read_i32 (mem.take m) off = read_i32 mem off := by
  have h0 : off < m := by omega
  have h1 : off + 1 < m := by omega
  have h2 : off + 2 < m := by omega
  have h3 : off + 3 < m := by omega
  simp [read_i32, List.getElem?_take, h0, h1, h2, h3]

theorem read_u8_some (mem : List Byte) (off : Nat) (h : off + 1 ≤ mem.length) :
    ∃ v, read_u8 mem off = some v := by
  have h0 : off < mem.length := by omega
  exact ⟨mem[off], by simp [read_u8, List.getElem?_eq_getElem h0]⟩

theorem read_i16_some (mem : List Byte) (off : Nat) (h : off + 2 ≤ mem.length) :
    ∃ v, read_i16 mem off = some v := by
  have h0 : off < mem.length := by omega
  have h1 : off + 1 < mem.length := by omega
  simp [read_i16, List.getElem?_eq_getElem h0, List.getElem?_eq_getElem h1]

theorem read_i32_some (mem : List Byte) (off : Nat) (h : off + 4 ≤ mem.length) :
    ∃ v, read_i32 mem off = some v := by
  have h0 : off < mem.length := by omega
  have h1 : off + 1 < mem.length := by omega
  have h2 : off + 2 < mem.length := by omega
  have h3 : off + 3 < mem.length := by omega
  simp [read_i32, List.getElem?_eq_getElem h0, List.getElem?_eq_getElem h1,
    List.getElem?_eq_getElem h2, List.getElem?_eq_getElem h3]

theorem TargetInfo_at_take (mem : List Byte) (m i : Nat)
    (h : (i + 1) * sizeof_TargetInfo ≤ m) :
    TargetInfo_at (mem.take m) i = TargetInfo_at mem i := by
  rw [sizeof_TargetInfo_eq] at h
  obtain ⟨o0, o1, o2, o3, o4, o5, o6, o7, o8, o9, o10, o11, o12, o13, o14, o15⟩ :=
    offsetof_values
  simp only [TargetInfo_at, sizeof_TargetInfo_eq, o0, o1, o2, o3, o4, o5, o6, o7, o8, o9,
    o10, o11, o12, o13, o14, o15]
  rw [read_u8_take mem m (i * 29 + 0) (by omega), read_i16_take mem m (i * 29 + 1) (by omega),
    read_i16_take mem m (i * 29 + 3) (by omega), read_i16_take mem m (i * 29 + 5) (by omega),
    read_u8_take mem m (i * 29 + 7) (by omega), read_u8_take mem m (i * 29 + 8) (by omega),
    read_i16_take mem m (i * 29 + 9) (by omega), read_i16_take mem m (i * 29 + 11) (by omega),
    read_i16_take mem m (i * 29 + 13) (by omega), read_i16_take mem m (i * 29 + 15) (by omega),
    read_u8_take mem m (i * 29 + 17) (by omega), read_i32_take mem m (i * 29 + 18) (by omega),
    read_i32_take mem m (i * 29 + 22) (by omega), read_u8_take mem m (i * 29 + 26) (by omega),
    read_u8_take mem m (i * 29 + 27) (by omega), read_u8_take mem m (i * 29 + 28) (by omega)]

theorem TargetInfo_at_some (mem : List Byte) (i : Nat)
    (h : (i + 1) * sizeof_TargetInfo ≤ mem.length) :
    ∃ t, TargetInfo_at mem i = some t := by
  rw [sizeof_TargetInfo_eq] at h
  obtain ⟨o0, o1, o2, o3, o4, o5, o6, o7, o8, o9, o10, o11, o12, o13, o14, o15⟩ :=
    offsetof_values
  obtain ⟨v0, e0⟩ := read_u8_some mem (i * 29 + 0) (by omega)
  obtain ⟨v1, e1⟩ := read_i16_some mem (i * 29 + 1) (by omega)
  obtain ⟨v2, e2⟩ := read_i16_some mem (i * 29 + 3) (by omega)
  obtain ⟨v3, e3⟩ := read_i16_some mem (i * 29 + 5) (by omega)
  obtain ⟨v4, e4⟩ := read_u8_some mem (i * 29 + 7) (by omega)
  obtain ⟨v5, e5⟩ := read_u8_some mem (i * 29 + 8) (by omega)
  obtain ⟨v6, e6⟩ := read_i16_some mem (i * 29 + 9) (by omega)
  obtain ⟨v7, e7⟩ := read_i16_some mem (i * 29 + 11) (by omega)
  obtain ⟨v8, e8⟩ := read_i16_some mem (i * 29 + 13) (by omega)
  obtain ⟨v9, e9⟩ := read_i16_some mem (i * 29 + 15) (by omega)
  obtain ⟨v10, e10⟩ := read_u8_some mem (i * 29 + 17) (by omega)
  obtain ⟨v11, e11⟩ := read_i32_some mem (i * 29 + 18) (by omega)
  obtain ⟨v12, e12⟩ := read_i32_some mem (i * 29 + 22) (by omega)
  obtain ⟨v13, e13⟩ := read_u8_some mem (i * 29 + 26) (by omega)
  obtain ⟨v14, e14⟩ := read_u8_some mem (i * 29 + 27) (by omega)
  obtain ⟨v15, e15⟩ := read_u8_some mem (i * 29 + 28) (by omega)
  refine ⟨⟨v0, v1, v2, v3, v4, v5, v6, v7, v8, v9, v10, v11, v12, v13, v14, v15⟩, ?_⟩
  simp only [TargetInfo_at, sizeof_TargetInfo_eq, o0, o1, o2, o3, o4, o5, o6, o7, o8, o9,
    o10, o11, o12, o13, o14, o15, e0, e1, e2, e3, e4, e5, e6, e7, e8, e9, e10, e11, e12,
    e13, e14, e15]


theorem records_zero (targets : List Byte) (first : Nat) : records targets first 0 = [] := rfl

theorem records_succ (targets : List Byte) (first count : Nat) (t : TargetInfo)
    (h : TargetInfo_at targets first = some t) :
    records targets first (count + 1) = t :: records targets (first + 1) count := by
  simp [records, List.range'_succ, List.filterMap_cons, h]

theorem groups_text_cons (t : TargetInfo) (ts : List TargetInfo) :
    groups_text (t :: ts) = target_text t ++ groups_text ts := rfl

theorem for_targets_ok (targets : List Byte) :
    ∀ (n i : Nat) (os : OStream), os.basefield = .dec → os.width = 0 →
      (i + n) * sizeof_TargetInfo ≤ targets.length →
      for_targets targets n i os =
        ⟨⟨os.buf ++ groups_text (records targets i n), .dec,
          if n = 0 then os.fill else '0', 0⟩, none⟩ ∧
      (records targets i n).length = n := by
  intro n
  induction n with
  | zero =>
    intro i os hb hw _
    cases os with
    | mk buf bf fill width =>
      simp only at hb hw
      subst hb hw
      simp [for_targets, records_zero, groups_text]
  | succ n ih =>
    intro i os hb hw hlen
    have hi : (i + 1) * sizeof_TargetInfo ≤ targets.length := by
      have : (i + 1) * sizeof_TargetInfo ≤ (i + (n + 1)) * sizeof_TargetInfo :=
        Nat.mul_le_mul_right _ (by omega)
      omega
    obtain ⟨t, ht⟩ := TargetInfo_at_some targets i hi
    have hstep := ih (i + 1) (print_target os t)
      (by rw [print_target_eq os t hb hw]) (by rw [print_target_eq os t hb hw])
      (by rw [show i + 1 + n = i + (n + 1) by omega]; exact hlen)
    rw [records_succ targets i n t ht]
    constructor
    · simp only [for_targets, ht]
      rw [hstep.1, print_target_eq os t hb hw]
      simp [groups_text_cons, String.append_assoc]
    · simp [hstep.2]

theorem records_take (mem : List Byte) (m : Nat) :
    ∀ (n i : Nat), (i + n) * sizeof_TargetInfo ≤ m →
      records (mem.take m) i n = records mem i n := by
  intro n
  induction n with
  | zero => intro i _; rfl
  | succ n ih =>
    intro i h
    have hi : (i + 1) * sizeof_TargetInfo ≤ m := by
      have : (i + 1) * sizeof_TargetInfo ≤ (i + (n + 1)) * sizeof_TargetInfo :=
        Nat.mul_le_mul_right _ (by omega)
      omega
    have hrec := ih (i + 1) (by rw [show i + 1 + n = i + (n + 1) by omega]; exact h)
    simp only [records, List.range'_succ, List.filterMap_cons] at hrec ⊢
    rw [TargetInfo_at_take mem m i hi, hrec]


theorem block_shape (block : List Byte) (h4 : 4 ≤ block.length)
    (h0 : block[0]? = some 0x4D) (h1 : block[1]? = some 0x42) :
    ∃ b2 b3 rest, block = 0x4D :: 0x42 :: b2 :: b3 :: rest := by
  match block, h4, h0, h1 with
  | a :: b :: c :: d :: rest, _, h0, h1 =>
    simp only [List.getElem?_cons_zero, List.getElem?_cons_succ, Option.some.injEq] at h0 h1
    exact ⟨c, d, rest, by rw [h0, h1]⟩

theorem val_4D : ((0x4D : Byte) : Nat) = 0x4D := rfl

theorem val_42 : ((0x42 : Byte) : Nat) = 0x42 := rfl

theorem parse_rejected (b2 b3 : Byte) (rest : List Byte) (os : OStream)
    (h : b2.val + 256 * b3.val < 2 ∨ rest.length < b2.val + 256 * b3.val) :
    parse_4d42_block (0x4D :: 0x42 :: b2 :: b3 :: rest) (rest.length + 4) os =
      ⟨os, some (.invalid_argument "Invalid data length")⟩ := by
  have hdl := data_length_eq b2 b3
  have hguard : b2.val + 256 * b3.val < 2 ∨ b2.val + 256 * b3.val > rest.length + 4 - 4 := by
    omega
  simp only [parse_4d42_block, List.getElem?_cons_zero, List.getElem?_cons_succ, hdl, hguard,
    val_4D, val_42]
  simp

theorem parse_accepted (b2 b3 : Byte) (rest : List Byte) (os : OStream)
    (hb : os.basefield = .dec) (hw : os.width = 0)
    (hlo : 2 ≤ b2.val + 256 * b3.val) (hhi : b2.val + 256 * b3.val ≤ rest.length) :
    parse_4d42_block (0x4D :: 0x42 :: b2 :: b3 :: rest) (rest.length + 4) os =
      ⟨⟨os.buf ++
          (if 128 < (b2.val + 256 * b3.val - 2) / sizeof_TargetInfo then
            warning_text ((b2.val + 256 * b3.val - 2) / sizeof_TargetInfo) else "") ++
          "Found " ++ Nat.repr (min ((b2.val + 256 * b3.val - 2) / sizeof_TargetInfo) 128) ++
          " targets:\n" ++
          groups_text (records rest 0
            (min ((b2.val + 256 * b3.val - 2) / sizeof_TargetInfo) 128)),
        .dec,
        if min ((b2.val + 256 * b3.val - 2) / sizeof_TargetInfo) 128 = 0 then os.fill else '0',
        0⟩, none⟩ ∧
      (records rest 0 (min ((b2.val + 256 * b3.val - 2) / sizeof_TargetInfo) 128)).length =
        min ((b2.val + 256 * b3.val - 2) / sizeof_TargetInfo) 128 := by
  have hdl := data_length_eq b2 b3
  generalize hM : (b2.val + 256 * b3.val - 2) / sizeof_TargetInfo = M
  have hMle : M * sizeof_TargetInfo ≤ rest.length := by
    have := Nat.div_mul_le_self (b2.val + 256 * b3.val - 2) sizeof_TargetInfo
    rw [hM] at this
    omega
  have hN : (0 + min M 128) * sizeof_TargetInfo ≤ rest.length := by
    have : min M 128 * sizeof_TargetInfo ≤ M * sizeof_TargetInfo :=
      Nat.mul_le_mul_right _ (Nat.min_le_left _ _)
    rw [Nat.zero_add]
    omega
  have hguard : ¬ (b2.val + 256 * b3.val < 2 ∨ b2.val + 256 * b3.val > rest.length + 4 - 4) := by
    omega
  cases os with
  | mk buf bf fill width =>
    simp only at hb hw
    subst hb hw
    by_cases hbig : 128 < M
    · have hmin : min M 128 = 128 := by omega
      rw [hmin] at hN ⊢
      refine ⟨?_, (for_targets_ok rest 128 0 OStream.fresh rfl rfl hN).2⟩
      simp only [parse_4d42_block, List.getElem?_cons_zero, List.getElem?_cons_succ, hdl,
        hguard, hM, List.drop_succ_cons, List.drop_zero, val_4D, val_42]
      simp only [hbig, OStream.put_str, OStream.put_size_t, OStream.emit, mk_replicate_zero,
        Nat.lt_irrefl, Nat.not_lt_zero, ite_true, ite_false, Nat.sub_zero, Nat.zero_sub,
        ne_eq, not_true_eq_false, gt_iff_lt]
      rw [(for_targets_ok rest 128 0 _ rfl rfl hN).1]
      simp [warning_text, String.append_assoc]
    · have hmin : min M 128 = M := by omega
      rw [hmin] at hN ⊢
      refine ⟨?_, (for_targets_ok rest M 0 OStream.fresh rfl rfl hN).2⟩
      simp only [parse_4d42_block, List.getElem?_cons_zero, List.getElem?_cons_succ, hdl,
        hguard, hM, List.drop_succ_cons, List.drop_zero, val_4D, val_42]
      simp only [hbig, OStream.put_str, OStream.put_size_t, OStream.emit, mk_replicate_zero,
        Nat.lt_irrefl, Nat.not_lt_zero, ite_true, ite_false, Nat.sub_zero, Nat.zero_sub,
        ne_eq, not_true_eq_false, gt_iff_lt]
      rw [(for_targets_ok rest M 0 _ rfl rfl hN).1]
      simp [String.append_assoc]


theorem pattern_isPrefixOf (b : Byte) (rest : List Byte) :
    pattern.isPrefixOf (b :: rest) = true ↔ marker_at (b :: rest) 0 := by
  cases rest with
  | nil => simp [pattern, marker_at, List.isPrefixOf]
  | cons c rest =>
    simp [pattern, marker_at, List.isPrefixOf]
    constructor
    · rintro ⟨h1, h2⟩
      exact ⟨h1.symm, h2.symm⟩
    · rintro ⟨h1, h2⟩
      exact ⟨h1.symm, h2.symm⟩

theorem marker_at_succ (b : Byte) (rest : List Byte) (i : Nat) :
    marker_at (b :: rest) (i + 1) ↔ marker_at rest i := by
  simp [marker_at]

theorem std_search_le (data : List Byte) : std_search data pattern ≤ data.length := by
  induction data with
  | nil => simp [std_search]
  | cons b rest ih =>
    simp only [std_search]
    split
    · omega
    · simp only [List.length_cons]
      omega

theorem std_search_marker (data : List Byte) :
    std_search data pattern < data.length → marker_at data (std_search data pattern) := by
  induction data with
  | nil => simp [std_search]
  | cons b rest ih =>
    simp only [std_search]
    split
    · next h => intro _; exact (pattern_isPrefixOf b rest).1 h
    · intro hlt
      simp only [List.length_cons] at hlt
      exact (marker_at_succ b rest _).2 (ih (by omega))

theorem std_search_min (data : List Byte) :
    ∀ j, j < std_search data pattern → ¬ marker_at data j := by
  induction data with
  | nil => simp [std_search]
  | cons b rest ih =>
    intro j
    simp only [std_search]
    split
    · intro h; omega
    · next hno =>
      intro hj
      cases j with
      | zero => exact fun hm => hno ((pattern_isPrefixOf b rest).2 hm)
      | succ j => exact fun hm => ih j (by omega) ((marker_at_succ b rest j).1 hm)

theorem std_search_none (data : List Byte) (h : ∀ i, ¬ marker_at data i) :
    std_search data pattern = data.length := by
  have hle := std_search_le data
  by_contra hne
  exact h _ (std_search_marker data (by omega))

theorem std_search_first (data : List Byte) (i : Nat) (hm : marker_at data i)
    (hmin : ∀ j, j < i → ¬ marker_at data j) : std_search data pattern = i := by
  have hle := std_search_le data
  have hi : i + 1 < data.length := by
    by_contra hge
    have := hm.2
    rw [List.getElem?_eq_none (by omega)] at this
    exact absurd this (by simp)
  rcases Nat.lt_trichotomy (std_search data pattern) i with hlt | heq | hgt
  · exact absurd (std_search_marker data (by omega)) (hmin _ hlt)
  · exact heq
  · exact absurd hm (std_search_min data i hgt)

theorem marker_at_lt (data : List Byte) (i : Nat) (hm : marker_at data i) :
    i + 1 < data.length := by
  by_contra hge
  have := hm.2
  rw [List.getElem?_eq_none (by omega)] at this
  exact absurd this (by simp)

theorem drop_marker_shape (data : List Byte) (i : Nat) (hm : marker_at data i)
    (h4 : 4 ≤ data.length - i) :
    ∃ b2 b3 rest, data.drop i = 0x4D :: 0x42 :: b2 :: b3 :: rest := by
  apply block_shape
  · simp only [List.length_drop]; exact h4
  · rw [List.getElem?_drop]; exact hm.1
  · rw [List.getElem?_drop]; exact hm.2


theorem declared_length_cons (a b b2 b3 : Byte) (rest : List Byte) :
    declared_length (a :: b :: b2 :: b3 :: rest) = b2.val + 256 * b3.val := rfl

theorem accepted_shape (block : List Byte) (h : accepted block) :
    ∃ b2 b3 rest, block = 0x4D :: 0x42 :: b2 :: b3 :: rest ∧
      2 ≤ b2.val + 256 * b3.val ∧ b2.val + 256 * b3.val ≤ rest.length := by
  obtain ⟨h4, h0, h1, hlo, hhi⟩ := h
  obtain ⟨b2, b3, rest, rfl⟩ := block_shape block h4 h0 h1
  rw [declared_length_cons] at hlo hhi
  simp only [List.length_cons] at hhi
  exact ⟨b2, b3, rest, rfl, hlo, by omega⟩

theorem payload_of_cons (a b b2 b3 : Byte) (rest : List Byte) :
    payload_of (a :: b :: b2 :: b3 :: rest) = rest.take (b2.val + 256 * b3.val - 2) := rfl

theorem parse_accepted_report (block : List Byte) (h : accepted block) (M : Nat)
    (hM : (payload_of block).length / sizeof_TargetInfo = M) :
    (parse_4d42_block block block.length OStream.fresh).exn = none ∧
    (M ≤ 128 →
      (parse_4d42_block block block.length OStream.fresh).os.buf =
        "Found " ++ Nat.repr M ++ " targets:\n" ++ groups_text (records (block.drop 4) 0 M) ∧
      (records (block.drop 4) 0 M).length = M) ∧
    (128 < M →
      (parse_4d42_block block block.length OStream.fresh).os.buf =
        "Warning: Invalid number of targets (" ++ Nat.repr M ++ "), truncating to 128\n" ++
          "Found 128 targets:\n" ++ groups_text (records (block.drop 4) 0 128) ∧
      (records (block.drop 4) 0 128).length = 128) := by
  obtain ⟨b2, b3, rest, rfl, hlo, hhi⟩ := accepted_shape block h
  have hacc := parse_accepted b2 b3 rest OStream.fresh rfl rfl hlo hhi
  have hlen : (rest.take (b2.val + 256 * b3.val - 2)).length = b2.val + 256 * b3.val - 2 := by
    rw [List.length_take]
    omega
  simp only [payload_of_cons, hlen] at hM
  simp only [List.length_cons, List.drop_succ_cons, List.drop_zero]
  rw [hM] at hacc
  refine ⟨by rw [hacc.1], ?_, ?_⟩
  · intro hle
    have hmin : min M 128 = M := by omega
    have hnot : ¬ 128 < M := by omega
    rw [hmin] at hacc
    refine ⟨?_, hacc.2⟩
    rw [hacc.1]
    simp [hnot, OStream.fresh, String.append_assoc]
  · intro hbig
    have hmin : min M 128 = 128 := by omega
    rw [hmin] at hacc
    refine ⟨?_, hacc.2⟩
    rw [hacc.1]
    simp [hbig, OStream.fresh, warning_text, String.append_assoc]
    rfl

theorem parse_marker_block (b2 b3 : Byte) (rest : List Byte) (os : OStream)
    (hb : os.basefield = .dec) (hw : os.width = 0) :
    parse_4d42_block (0x4D :: 0x42 :: b2 :: b3 :: rest) (rest.length + 4) os =
        ⟨os, some (.invalid_argument "Invalid data length")⟩ ∨
      (parse_4d42_block (0x4D :: 0x42 :: b2 :: b3 :: rest) (rest.length + 4) os).exn = none := by
  by_cases hbad : b2.val + 256 * b3.val < 2 ∨ rest.length < b2.val + 256 * b3.val
  · exact Or.inl (parse_rejected b2 b3 rest os hbad)
  · right
    rw [(parse_accepted b2 b3 rest os hb hw (by omega) (by omega)).1]

theorem find_at_marker (parse : List Byte → Nat → OStream → Outcome) (data : List Byte)
    (i : Nat) (os : OStream) (hm : marker_at data i)
    (hmin : ∀ j, j < i → ¬ marker_at data j) (h4 : 4 ≤ data.length - i) :
    find_and_parse_4d42_with parse data os =
      match parse (data.drop i) (data.length - i) os with
      | ⟨os, some (.invalid_argument what)⟩ =>
        ⟨((os.put_str "Error parsing block: ").put_str what).put_str "\n", none⟩
      | r => r := by
  have hs := std_search_first data i hm hmin
  have hne : ¬ i = data.length := by omega
  have hge : ¬ data.length - i < 4 := by omega
  simp only [find_and_parse_4d42_with, hs, hne, hge, if_false]

theorem find_incomplete (parse : List Byte → Nat → OStream → Outcome) (data : List Byte)
    (i : Nat) (os : OStream) (hm : marker_at data i)
    (hmin : ∀ j, j < i → ¬ marker_at data j) (h4 : data.length - i < 4) :
    find_and_parse_4d42_with parse data os = ⟨os.put_str "Incomplete 4D42 header\n", none⟩ := by
  have hs := std_search_first data i hm hmin
  have hlt := marker_at_lt data i hm
  have hne : ¬ i = data.length := by omega
  simp only [find_and_parse_4d42_with, hs, hne, h4, if_false, if_true]

theorem find_not_found (parse : List Byte → Nat → OStream → Outcome) (data : List Byte)
    (os : OStream) (h : ∀ i, ¬ marker_at data i) :
    find_and_parse_4d42_with parse data os = ⟨os.put_str "4D42 block not found\n", none⟩ := by
  have hs := std_search_none data h
  simp only [find_and_parse_4d42_with, hs, if_true]

theorem find_at_marker_cases (data : List Byte) (i : Nat) (hm : marker_at data i)
    (hmin : ∀ j, j < i → ¬ marker_at data j) (h4 : 4 ≤ data.length - i) :
    (parse_4d42_block (data.drop i) (data.length - i) OStream.fresh =
        ⟨OStream.fresh, some (.invalid_argument "Invalid data length")⟩ ∧
      find_and_parse_4d42 data OStream.fresh =
        ⟨⟨"Error parsing block: Invalid data length\n", .dec, ' ', 0⟩, none⟩) ∨
    ((parse_4d42_block (data.drop i) (data.length - i) OStream.fresh).exn = none ∧
      find_and_parse_4d42 data OStream.fresh =
        parse_4d42_block (data.drop i) (data.length - i) OStream.fresh) := by
  have hfind := find_at_marker parse_4d42_block data i OStream.fresh hm hmin h4
  obtain ⟨b2, b3, rest, hshape⟩ := drop_marker_shape data i hm h4
  have hlen : data.length - i = rest.length + 4 := by
    have := congrArg List.length hshape
    simp only [List.length_drop, List.length_cons] at this
    omega
  rw [find_and_parse_4d42, hfind, hshape, hlen]
  rcases parse_marker_block b2 b3 rest OStream.fresh rfl rfl with hrej | hok
  · left
    rw [hrej]
    exact ⟨rfl, rfl⟩
  · right
    refine ⟨hok, ?_⟩
    generalize parse_4d42_block (0x4D :: 0x42 :: b2 :: b3 :: rest) (rest.length + 4)
      OStream.fresh = r at hok
    cases r with
    | mk os exn =>
      simp only at hok
      subst hok
      rfl

theorem not_accepted_throws (block : List Byte) (os : OStream) (h : ¬ accepted block) :
    ∃ msg, parse_4d42_block block block.length os = ⟨os, some (.invalid_argument msg)⟩ := by
  by_cases h4 : block.length < 4
  · exact ⟨"Invalid block size", by simp [parse_4d42_block, h4]⟩
  · have h4 : 4 ≤ block.length := by omega
    match block, h, h4 with
    | a :: b :: b2 :: b3 :: rest, h, _ =>
      by_cases ha : a = 0x4D
      · by_cases hb : b = 0x42
        · subst ha hb
          refine ⟨"Invalid data length", parse_rejected b2 b3 rest os ?_⟩
          by_contra hgood
          apply h
          refine ⟨by simp, rfl, rfl, ?_, ?_⟩
          · rw [declared_length_cons]; omega
          · rw [declared_length_cons]; simp only [List.length_cons]; omega
        · have hbv : b.val ≠ 0x42 := fun hv => hb (Fin.ext hv)
          subst ha
          exact ⟨"Not a 4D42 block", by simp [parse_4d42_block, hbv]⟩
      · have hav : a.val ≠ 0x4D := fun hv => ha (Fin.ext hv)
        exact ⟨"Not a 4D42 block", by simp [parse_4d42_block, hav]⟩

theorem accepted_iff_no_throw (block : List Byte) :
    accepted block ↔ (parse_4d42_block block block.length OStream.fresh).exn = none := by
  constructor
  · intro h
    exact (parse_accepted_report block h _ rfl).1
  · intro hnone
    by_contra hna
    obtain ⟨msg, hmsg⟩ := not_accepted_throws block OStream.fresh hna
    rw [hmsg] at hnone
    exact absurd hnone (by simp)

theorem declared_length_129 : declared_length block_129_records = 3743 := by
  rw [block_129_records, declared_length_cons]
  decide

theorem length_129 : block_129_records.length = 3747 := by
  rw [block_129_records]
  simp only [List.length_cons, List.length_replicate]

theorem accepted_129 : accepted block_129_records := by
  refine ⟨?_, ?_, ?_, ?_, ?_⟩
  · rw [length_129]; decide
  · rw [block_129_records, List.getElem?_cons_zero]
  · rw [block_129_records, List.getElem?_cons_succ, List.getElem?_cons_zero]
  · rw [declared_length_129]; decide
  · rw [declared_length_129, length_129]

theorem count_129 : (payload_of block_129_records).length / sizeof_TargetInfo = 129 := by
  rw [payload_of, declared_length_129, List.length_take, List.length_drop, length_129,
    sizeof_TargetInfo_eq]
  decide

theorem hex_pad_eq : ∀ v : Byte,
    String.mk (List.replicate
        (2 - (String.mk (Nat.toDigits 16 (((v.val : Int) % 4294967296).toNat))).length) '0') ++
      String.mk (Nat.toDigits 16 (((v.val : Int) % 4294967296).toNat)) = hex2 v := by
  decide!

theorem hex_pad_append (v : Byte) (rest : String) :
    String.mk (List.replicate
        (2 - (String.mk (Nat.toDigits 16 (((v.val : Int) % 4294967296).toNat))).length) '0') ++
      (String.mk (Nat.toDigits 16 (((v.val : Int) % 4294967296).toNat)) ++ rest) =
      hex2 v ++ rest := by
  rw [← String.append_assoc, hex_pad_eq]

theorem toString_natCast (n : Nat) : toString (n : Int) = Nat.repr n := rfl

theorem target_text_eq (t : TargetInfo) : target_text t = unlines (target_lines t) := by
  simp only [target_text, print_target, OStream.fresh, OStream.put_str, OStream.put_int,
    OStream.put_tenths, OStream.emit, OStream.hex, OStream.dec, OStream.setw, OStream.setfill,
    unlines, target_lines, lane_text, List.map, List.foldr, toString_natCast]
  split <;>
    simp only [mk_replicate_zero, String.append_assoc, String.empty_append, String.append_empty,
      Nat.sub_zero, Nat.zero_sub, hex_pad_append] <;> rfl

/-! ### Decimal digits of `Nat.repr` -/

theorem digitChar_ne_newline (d : Nat) : Nat.digitChar d ≠ '\n' := by
  by_cases h : d < 16
  · interval_cases d <;> decide
  · unfold Nat.digitChar
    repeat rw [if_neg (by omega)]
    decide

theorem toDigitsCore_no_newline (b : Nat) :
    ∀ (fuel n : Nat) (ds : List Char), '\n' ∉ ds → '\n' ∉ Nat.toDigitsCore b fuel n ds := by
  intro fuel
  induction fuel with
  | zero => intro n ds h; simpa [Nat.toDigitsCore] using h
  | succ fuel ih =>
    intro n ds h
    have hcons : '\n' ∉ Nat.digitChar (n % b) :: ds := by
      intro hmem
      rcases List.mem_cons.1 hmem with heq | hin
      · exact digitChar_ne_newline _ heq.symm
      · exact h hin
    simp only [Nat.toDigitsCore]
    split
    · exact hcons
    · exact ih _ _ hcons

theorem newlines_append (a b : String) : newlines (a ++ b) = newlines a + newlines b := by
  simp [newlines, String.data_append, List.count_append]

theorem newlines_repr (n : Nat) : newlines (Nat.repr n) = 0 := by
  have h := toDigitsCore_no_newline 10 (n + 1) n [] (by simp)
  simp only [newlines, Nat.repr, Nat.toDigits, List.asString]
  exact List.count_eq_zero_of_not_mem h

theorem toDigitsCore_append (b : Nat) :
    ∀ (fuel n : Nat) (ds : List Char),
      Nat.toDigitsCore b fuel n ds = Nat.toDigitsCore b fuel n [] ++ ds := by
  intro fuel
  induction fuel with
  | zero => intro n ds; simp [Nat.toDigitsCore]
  | succ fuel ih =>
    intro n ds
    simp only [Nat.toDigitsCore]
    split
    · simp
    · rw [ih _ (Nat.digitChar (n % b) :: ds), ih _ [Nat.digitChar (n % b)]]
      simp

theorem toDigitsCore_fuel :
    ∀ (fuel n : Nat), n < fuel →
      Nat.toDigitsCore 10 fuel n [] = Nat.toDigitsCore 10 (n + 1) n [] := by
  intro fuel
  induction fuel using Nat.strong_induction_on with
  | _ fuel ih =>
    intro n h
    cases fuel with
    | zero => omega
    | succ fuel =>
      simp only [Nat.toDigitsCore]
      split
      · rfl
      · next hne =>
        have hlt : n / 10 < fuel := by omega
        have hlt2 : n / 10 < n := by omega
        rw [toDigitsCore_append 10 fuel, toDigitsCore_append 10 n,
          ih fuel (by omega) _ hlt, ih n (by omega) _ hlt2]

theorem toDigits_small (n : Nat) (h : n < 10) : Nat.toDigits 10 n = [Nat.digitChar n] := by
  have h0 : n / 10 = 0 := by omega
  have h1 : n % 10 = n := by omega
  simp [Nat.toDigits, Nat.toDigitsCore, h0, h1]

theorem toDigits_step (n : Nat) (h : 10 ≤ n) :
    Nat.toDigits 10 n = Nat.toDigits 10 (n / 10) ++ [Nat.digitChar (n % 10)] := by
  have hne : ¬ n / 10 = 0 := by omega
  have hlt : n / 10 < n := by omega
  show Nat.toDigitsCore 10 (n + 1) n [] =
    Nat.toDigitsCore 10 (n / 10 + 1) (n / 10) [] ++ [Nat.digitChar (n % 10)]
  rw [Nat.toDigitsCore]
  simp only [hne, if_false]
  rw [toDigitsCore_append 10 n, toDigitsCore_fuel n (n / 10) hlt]

theorem digit_value_digitChar (d : Nat) (h : d < 10) : digit_value (Nat.digitChar d) = d := by
  interval_cases d <;> decide

theorem decimal_value_repr (n : Nat) : decimal_value (Nat.repr n) = n := by
  induction n using Nat.strong_induction_on with
  | _ n ih =>
    by_cases h : n < 10
    · simp [decimal_value, Nat.repr, List.asString, toDigits_small n h,
        digit_value_digitChar n h]
    · have hstep := toDigits_step n (by omega)
      have hrec := ih (n / 10) (by omega)
      simp only [decimal_value, Nat.repr, List.asString] at hrec ⊢
      rw [hstep, List.foldl_append, hrec]
      simp only [List.foldl_cons, List.foldl_nil]
      rw [digit_value_digitChar _ (Nat.mod_lt _ (by decide))]
      omega

/-! ### The report of an accepted block -/

theorem groups_text_lines (ts : List TargetInfo) :
    groups_text ts =
      (ts.map fun t => unlines (target_lines t)).foldr (fun a b => a ++ b) "" := by
  induction ts with
  | nil => simp only [groups_text, List.map_nil, List.foldr_nil]
  | cons t ts ih =>
    rw [groups_text_cons, ih, target_text_eq]
    simp only [List.map_cons, List.foldr_cons]

theorem report_eq (block : List Byte) (h : accepted block) :
    parse_4d42_block block block.length OStream.fresh =
      ⟨⟨report_head block ++ groups_text (decoded block), .dec,
        if decoded_count block = 0 then ' ' else '0', 0⟩, none⟩ ∧
    (decoded block).length = decoded_count block := by
  obtain ⟨b2, b3, rest, rfl, hlo, hhi⟩ := accepted_shape block h
  have hacc := parse_accepted b2 b3 rest OStream.fresh rfl rfl hlo hhi
  have hlen : (rest.take (b2.val + 256 * b3.val - 2)).length = b2.val + 256 * b3.val - 2 := by
    rw [List.length_take]
    omega
  simp only [decoded, decoded_count, record_count, report_head, payload_of_cons, hlen,
    List.length_cons, List.drop_succ_cons, List.drop_zero]
  refine ⟨?_, hacc.2⟩
  rw [hacc.1]
  simp only [OStream.fresh, String.empty_append, String.append_assoc]

theorem print_target_lines (os : OStream) (t : TargetInfo)
    (hb : os.basefield = .dec) (hw : os.width = 0) :
    print_target os t = ⟨os.buf ++ unlines (target_lines t), .dec, '0', 0⟩ := by
  rw [print_target_eq os t hb hw, target_text_eq]

theorem hex_value_hex2 : ∀ v : Byte, hex_value (hex2 v) = v.val := by
  decide!

theorem invalid_ne_plain : ∀ v : Byte,
    "Invalid (" ++ Nat.repr v.val ++ ")" ≠ Nat.repr v.val := by
  decide!

theorem unknown_label : ∀ v : Byte, 5 ≤ v.val →
    get_target_type v = "Unknown (" ++ Nat.repr v.val ++ ")" := by
  decide!

/-! ### Line ends of a report -/

theorem newlines_fmt_tenths (raw : Int) : newlines (fmt_tenths raw) = 0 := by
  unfold fmt_tenths
  rw [newlines_append, newlines_append, newlines_repr]
  have h1 : newlines (if raw < 0 then "-" else "") = 0 := by
    split <;> decide
  have h2 : newlines (if raw.natAbs % 10 = 0 then "" else "." ++ Nat.repr (raw.natAbs % 10))
      = 0 := by
    split
    · decide
    · rw [newlines_append, newlines_repr]; decide
  rw [h1, h2]

theorem newlines_get_target_type : ∀ v : Byte, newlines (get_target_type v) = 0 := by
  decide!

theorem newlines_lane_text : ∀ v : Byte, newlines (lane_text v) = 0 := by
  decide!

theorem newlines_hex2 : ∀ v : Byte, newlines (hex2 v) = 0 := by
  decide!

theorem newlines_target_lines (t : TargetInfo) : newlines (unlines (target_lines t)) = 12 := by
  simp only [unlines, target_lines, List.map, List.foldr, newlines_append, newlines_repr,
    newlines_fmt_tenths, newlines_get_target_type, newlines_lane_text, newlines_hex2]
  decide

theorem newlines_groups (ts : List TargetInfo) :
    newlines ((ts.map fun r => unlines (target_lines r)).foldr (fun a b => a ++ b) "") =
      12 * ts.length := by
  induction ts with
  | nil => simp only [List.map_nil, List.foldr_nil, List.length_nil]; decide
  | cons t ts ih =>
    simp only [List.map_cons, List.foldr_cons, List.length_cons, newlines_append, ih,
      newlines_target_lines]
    omega

theorem newlines_report_head (block : List Byte) :
    newlines (report_head block) = (if 128 < record_count block then 1 else 0) + 1 := by
  unfold report_head warning_text
  split
  · simp only [newlines_append, newlines_repr]
    decide
  · simp only [newlines_append, newlines_repr]
    decide

theorem records_getElem? (targets : List Byte) :
    ∀ (n first i : Nat), (first + n) * sizeof_TargetInfo ≤ targets.length → i < n →
      (records targets first n)[i]? = TargetInfo_at targets (first + i) := by
  intro n
  induction n with
  | zero => intro first i _ hi; omega
  | succ n ih =>
    intro first i hlen hi
    have hfirst : (first + 1) * sizeof_TargetInfo ≤ targets.length := by
      have : (first + 1) * sizeof_TargetInfo ≤ (first + (n + 1)) * sizeof_TargetInfo :=
        Nat.mul_le_mul_right _ (by omega)
      omega
    obtain ⟨t, ht⟩ := TargetInfo_at_some targets first hfirst
    rw [records_succ targets first n t ht]
    cases i with
    | zero => simp [ht]
    | succ i =>
      rw [List.getElem?_cons_succ,
        ih (first + 1) i (by rw [show first + 1 + n = first + (n + 1) by omega]; exact hlen)
          (by omega)]
      rw [show first + 1 + i = first + (i + 1) by omega]

theorem decoded_in_bounds (block : List Byte) (h : accepted block) :
    (payload_of block).length = declared_length block - 2 ∧
    decoded_count block * sizeof_TargetInfo ≤ declared_length block - 2 ∧
    4 + (declared_length block - 2) ≤ block.length ∧
    (0 + decoded_count block) * sizeof_TargetInfo ≤ (block.drop 4).length := by
  obtain ⟨b2, b3, rest, rfl, hlo, hhi⟩ := accepted_shape block h
  have hlen : (rest.take (b2.val + 256 * b3.val - 2)).length = b2.val + 256 * b3.val - 2 := by
    rw [List.length_take]
    omega
  simp only [decoded_count, record_count, payload_of_cons, declared_length_cons, hlen,
    List.length_cons, List.drop_succ_cons, List.drop_zero, sizeof_TargetInfo_eq, Nat.zero_add]
  generalize b2.val + 256 * b3.val = L at hlo hhi
  have h1 : (L - 2) / 29 * 29 ≤ L - 2 := Nat.div_mul_le_self _ _
  have h2 : min ((L - 2) / 29) 128 * 29 ≤ (L - 2) / 29 * 29 :=
    Nat.mul_le_mul_right _ (Nat.min_le_left _ _)
  refine ⟨trivial, ?_, ?_, ?_⟩ <;> omega

/-! ### Reads stay inside the buffer -/

theorem for_targets_in_bounds (targets : List Byte) :
    ∀ (n i : Nat) (os : OStream), (i + n) * sizeof_TargetInfo ≤ targets.length →
      (for_targets targets n i os).exn = none := by
  intro n
  induction n with
  | zero => intro i os _; rfl
  | succ n ih =>
    intro i os hlen
    have hi : (i + 1) * sizeof_TargetInfo ≤ targets.length := by
      have : (i + 1) * sizeof_TargetInfo ≤ (i + (n + 1)) * sizeof_TargetInfo :=
        Nat.mul_le_mul_right _ (by omega)
      omega
    obtain ⟨t, ht⟩ := TargetInfo_at_some targets i hi
    simp only [for_targets, ht]
    exact ih (i + 1) _ (by rw [show i + 1 + n = i + (n + 1) by omega]; exact hlen)

theorem parse_in_bounds (data : List Byte) (size : Nat) (os : OStream)
    (h : size ≤ data.length) :
    (parse_4d42_block data size os).exn ≠ some .out_of_bounds := by
  by_cases h4 : size < 4
  · simp [parse_4d42_block, h4]
  · have hlen : 4 ≤ data.length := by omega
    match data, hlen, h with
    | a :: b :: b2 :: b3 :: rest, _, h =>
      simp only [List.length_cons] at h
      simp only [parse_4d42_block, h4, if_false, List.getElem?_cons_zero,
        List.getElem?_cons_succ, List.drop_succ_cons, List.drop_zero, sizeof_TargetInfo_eq]
      generalize ((b3.val <<< 8) ||| b2.val) % 65536 = L
      split
      · simp
      · split
        · simp
        · split
          · simp
          · next hok =>
            rw [for_targets_in_bounds rest _ 0 _ (by
              rw [sizeof_TargetInfo_eq, Nat.zero_add]
              split <;> omega)]
            simp

theorem find_exn_none (data : List Byte) :
    (find_and_parse_4d42 data OStream.fresh).exn = none := by
  by_cases hs : std_search data pattern = data.length
  · simp only [find_and_parse_4d42, find_and_parse_4d42_with, hs, if_true]
  · have hle := std_search_le data
    have hm := std_search_marker data (by omega)
    have hmin := std_search_min data
    by_cases h4 : data.length - std_search data pattern < 4
    · rw [find_and_parse_4d42, find_incomplete parse_4d42_block data _ OStream.fresh hm hmin h4]
    · rcases find_at_marker_cases data _ hm hmin (by omega) with ⟨_, hfind⟩ | ⟨hok, hfind⟩
      · rw [hfind]
      · rw [hfind, hok]

/-! ### The possible outputs of `find_and_parse_4d42` -/

theorem data_head_append (a b : String) (c : Char) (h : a.data.head? = some c) :
    (a ++ b).data.head? = some c := by
  cases a with
  | mk l =>
    cases l with
    | nil => simp at h
    | cons x xs => simpa [String.data_append] using h

theorem error_line_head (msg : String) :
    ("Error parsing block: " ++ msg ++ "\n").data.head? = some 'E' :=
  data_head_append _ _ _ (data_head_append _ _ _ rfl)

theorem report_head_head (block : List Byte) (rest : String) :
    (report_head block ++ rest).data.head? = some 'W' ∨
      (report_head block ++ rest).data.head? = some 'F' := by
  unfold report_head warning_text
  split
  · left
    exact data_head_append _ _ _ (data_head_append _ _ _ (data_head_append _ _ _
      (data_head_append _ _ _ (data_head_append _ _ _ (data_head_append _ _ _ rfl)))))
  · right
    rw [String.empty_append]
    exact data_head_append _ _ _ (data_head_append _ _ _ (data_head_append _ _ _ rfl))

theorem error_line_cancel (msg : String)
    (h : "Error parsing block: " ++ msg ++ "\n" =
      "Error parsing block: " ++ "Invalid data length" ++ "\n") :
    msg = "Invalid data length" := by
  have hd := congrArg String.data h
  simp only [String.data_append] at hd
  exact String.ext (List.append_cancel_left (List.append_cancel_right hd))

theorem find_output_cases (data : List Byte) :
    (find_and_parse_4d42 data OStream.fresh).os.buf = "4D42 block not found\n" ∨
    (find_and_parse_4d42 data OStream.fresh).os.buf = "Incomplete 4D42 header\n" ∨
    (find_and_parse_4d42 data OStream.fresh).os.buf =
      "Error parsing block: " ++ "Invalid data length" ++ "\n" ∨
    ∃ block, accepted block ∧
      (find_and_parse_4d42 data OStream.fresh).os.buf =
        report_head block ++ groups_text (decoded block) := by
  by_cases hs : std_search data pattern = data.length
  · left
    simp only [find_and_parse_4d42, find_and_parse_4d42_with, hs, if_true]
    rfl
  · have hle := std_search_le data
    have hm := std_search_marker data (by omega)
    have hmin := std_search_min data
    by_cases h4 : data.length - std_search data pattern < 4
    · right; left
      rw [find_and_parse_4d42, find_incomplete parse_4d42_block data _ OStream.fresh hm hmin h4]
      rfl
    · rcases find_at_marker_cases data _ hm hmin (by omega) with ⟨_, hfind⟩ | ⟨hok, hfind⟩
      · right; right; left
        rw [hfind]
        rfl
      · right; right; right
        have hacc : accepted (data.drop (std_search data pattern)) := by
          rw [accepted_iff_no_throw, List.length_drop]
          exact hok
        refine ⟨_, hacc, ?_⟩
        have hrep := (report_eq _ hacc).1
        rw [List.length_drop] at hrep
        rw [hfind, hrep]

/-! ### A record is a function of its 29 bytes -/

theorem record_bytes_getD (payload : List Byte) (i k : Nat) (hk : k < 29)
    (h : (i + 1) * 29 ≤ payload.length) :
    payload[i * 29 + k]? = some ((record_bytes payload i).getD k 0) := by
  have hlt : i * 29 + k < payload.length := by omega
  rw [record_bytes, sizeof_TargetInfo_eq, List.getD_eq_getElem?_getD, List.getElem?_take,
    if_pos hk, List.getElem?_drop, List.getElem?_eq_getElem hlt]
  rfl

theorem read_u8_record (payload : List Byte) (i k : Nat) (hk : k < 29)
    (h : (i + 1) * 29 ≤ payload.length) :
    read_u8 payload (i * 29 + k) = some ((record_bytes payload i).getD k 0) := by
  rw [read_u8, record_bytes_getD payload i k hk h]

theorem read_i16_record (payload : List Byte) (i k : Nat) (hk : k + 1 < 29)
    (h : (i + 1) * 29 ≤ payload.length) :
    read_i16 payload (i * 29 + k) =
      some (s16 ((record_bytes payload i).getD k 0) ((record_bytes payload i).getD (k + 1) 0)) := by
  rw [read_i16, record_bytes_getD payload i k (by omega) h, Nat.add_assoc,
    record_bytes_getD payload i (k + 1) hk h]
  simp only [s16]

theorem read_i32_record (payload : List Byte) (i k : Nat) (hk : k + 3 < 29)
    (h : (i + 1) * 29 ≤ payload.length) :
    read_i32 payload (i * 29 + k) =
      some (s32 ((record_bytes payload i).getD k 0) ((record_bytes payload i).getD (k + 1) 0)
        ((record_bytes payload i).getD (k + 2) 0) ((record_bytes payload i).getD (k + 3) 0)) := by
  rw [read_i32, record_bytes_getD payload i k (by omega) h, Nat.add_assoc,
    record_bytes_getD payload i (k + 1) (by omega) h, Nat.add_assoc,
    record_bytes_getD payload i (k + 2) (by omega) h, Nat.add_assoc,
    record_bytes_getD payload i (k + 3) hk h]
  simp only [s32]

theorem TargetInfo_at_record (payload : List Byte) (i : Nat)
    (h : (i + 1) * sizeof_TargetInfo ≤ payload.length) :
    TargetInfo_at payload i = some (record_of_bytes (record_bytes payload i)) := by
  rw [sizeof_TargetInfo_eq] at h
  obtain ⟨o0, o1, o2, o3, o4, o5, o6, o7, o8, o9, o10, o11, o12, o13, o14, o15⟩ :=
    offsetof_values
  simp only [TargetInfo_at, sizeof_TargetInfo_eq, o0, o1, o2, o3, o4, o5, o6, o7, o8, o9,
    o10, o11, o12, o13, o14, o15]
  rw [read_u8_record payload i 0 (by omega) h, read_i16_record payload i 1 (by omega) h,
    read_i16_record payload i 3 (by omega) h, read_i16_record payload i 5 (by omega) h,
    read_u8_record payload i 7 (by omega) h, read_u8_record payload i 8 (by omega) h,
    read_i16_record payload i 9 (by omega) h, read_i16_record payload i 11 (by omega) h,
    read_i16_record payload i 13 (by omega) h, read_i16_record payload i 15 (by omega) h,
    read_u8_record payload i 17 (by omega) h, read_i32_record payload i 18 (by omega) h,
    read_i32_record payload i 22 (by omega) h, read_u8_record payload i 26 (by omega) h,
    read_u8_record payload i 27 (by omega) h, read_u8_record payload i 28 (by omega) h]
  rfl

theorem decoded_getElem? (block : List Byte) (h : accepted block) (i : Nat)
    (hi : i < decoded_count block) :
    (decoded block)[i]? = some (record_of_bytes (record_bytes (block.drop 4) i)) ∧
    record_bytes (payload_of block) i = record_bytes (block.drop 4) i ∧
    (i + 1) * 29 ≤ (payload_of block).length ∧
    (i + 1) * 29 ≤ (block.drop 4).length := by
  obtain ⟨hpl, hN, hblk, hdrop⟩ := decoded_in_bounds block h
  rw [sizeof_TargetInfo_eq] at hN hdrop
  have hple : (i + 1) * 29 ≤ declared_length block - 2 := by omega
  have hdr : (i + 1) * 29 ≤ (block.drop 4).length := by omega
  refine ⟨?_, ?_, by omega, hdr⟩
  · have hget := records_getElem? (block.drop 4) (decoded_count block) 0 i
      (by rw [sizeof_TargetInfo_eq]; exact hdrop) hi
    rw [Nat.zero_add] at hget
    rw [decoded, hget]
    exact TargetInfo_at_record (block.drop 4) i (by rw [sizeof_TargetInfo_eq]; exact hdr)
  · simp only [record_bytes, payload_of, sizeof_TargetInfo_eq]
    rw [List.drop_take, List.take_take]
    congr 1
    omega

theorem rendered_fields_congr (s1 s2 : List Byte)
    (h : ∀ k, k < 18 → s1.getD k 0 = s2.getD k 0) :
    target_lines (record_of_bytes s1) = target_lines (record_of_bytes s2) := by
  simp only [target_lines, record_of_bytes, h 0 (by omega), h 1 (by omega), h 2 (by omega),
    h 3 (by omega), h 4 (by omega), h 5 (by omega), h 6 (by omega), h 7 (by omega),
    h 8 (by omega), h 9 (by omega), h 10 (by omega), h 11 (by omega), h 12 (by omega),
    h 13 (by omega), h 14 (by omega), h 15 (by omega), h 16 (by omega), h 17 (by omega)]

theorem declared_length_congr (b1 b2 : List Byte) (h : ∀ k, k < 4 → b1[k]? = b2[k]?) :
    declared_length b1 = declared_length b2 := by
  simp only [declared_length, List.getD_eq_getElem?_getD, h 2 (by omega), h 3 (by omega)]

/-! ### The quotient by ten and its six digits -/

theorem round_half_even_ten (N : Nat) :
    10 * round_half_even N 10 ≤ N + 5 ∧ N ≤ 10 * round_half_even N 10 + 5 := by
  unfold round_half_even
  split_ifs <;> omega

theorem tenths_intervals (n : Nat) (h1 : 1 ≤ n) (h2 : n ≤ 32768) :
    (1 ≤ n ∧ n ≤ 1) ∨ (2 ≤ n ∧ n ≤ 2) ∨ (3 ≤ n ∧ n ≤ 4) ∨ (5 ≤ n ∧ n ≤ 9) ∨
    (10 ≤ n ∧ n ≤ 19) ∨ (20 ≤ n ∧ n ≤ 39) ∨ (40 ≤ n ∧ n ≤ 79) ∨ (80 ≤ n ∧ n ≤ 99) ∨
    (100 ≤ n ∧ n ≤ 159) ∨ (160 ≤ n ∧ n ≤ 319) ∨ (320 ≤ n ∧ n ≤ 639) ∨
    (640 ≤ n ∧ n ≤ 999) ∨ (1000 ≤ n ∧ n ≤ 1279) ∨ (1280 ≤ n ∧ n ≤ 2559) ∨
    (2560 ≤ n ∧ n ≤ 5119) ∨ (5120 ≤ n ∧ n ≤ 9999) ∨ (10000 ≤ n ∧ n ≤ 10239) ∨
    (10240 ≤ n ∧ n ≤ 20479) ∨ (20480 ≤ n ∧ n ≤ 32768) := by
  omega

theorem find_shift_eq (n : Nat) (h1 : 1 ≤ n) (h2 : n ≤ 32768) :
    find_shift n 56 56 = shift_tenths n := by
  rcases tenths_intervals n h1 h2 with
    h | h | h | h | h | h | h | h | h | h | h | h | h | h | h | h | h | h | h <;>
  (obtain ⟨hlo, hhi⟩ := h
   unfold shift_tenths
   repeat (first | rw [if_pos (by omega)] | rw [if_neg (by omega)])
   repeat (first
      | (rw [find_shift, if_pos (by omega)])
      | (rw [find_shift, if_neg (by omega)])))
theorem exp_cond_antitone (m s : Nat) (x y : Int) (hxy : x ≤ y)
    (hy : if 0 ≤ y then 10 ^ y.toNat * 2 ^ s ≤ m else 2 ^ s ≤ m * 10 ^ (-y).toNat) :
    if 0 ≤ x then 10 ^ x.toNat * 2 ^ s ≤ m else 2 ^ s ≤ m * 10 ^ (-x).toNat := by
  by_cases hx : 0 ≤ x
  · have hy0 : 0 ≤ y := le_trans hx hxy
    rw [if_pos hy0] at hy
    rw [if_pos hx]
    have hpow : 10 ^ x.toNat ≤ 10 ^ y.toNat :=
      Nat.pow_le_pow_right (by decide) (Int.toNat_le_toNat hxy)
    exact le_trans (Nat.mul_le_mul_right _ hpow) hy
  · rw [if_neg hx]
    by_cases hy0 : 0 ≤ y
    · rw [if_pos hy0] at hy
      have h1 : 1 ≤ 10 ^ y.toNat := Nat.one_le_pow _ _ (by decide)
      have h2 : 1 ≤ 10 ^ (-x).toNat := Nat.one_le_pow _ _ (by decide)
      calc 2 ^ s = 1 * 2 ^ s := (Nat.one_mul _).symm
        _ ≤ 10 ^ y.toNat * 2 ^ s := Nat.mul_le_mul_right _ h1
        _ ≤ m := hy
        _ = m * 1 := (Nat.mul_one _).symm
        _ ≤ m * 10 ^ (-x).toNat := Nat.mul_le_mul_left _ h2
    · rw [if_neg hy0] at hy
      have hpow : 10 ^ (-y).toNat ≤ 10 ^ (-x).toNat :=
        Nat.pow_le_pow_right (by decide) (Int.toNat_le_toNat (by omega))
      exact le_trans hy (Nat.mul_le_mul_left _ hpow)

theorem dec_exp_eq (m s : Nat) (X : Int)
    (hX : if 0 ≤ X then 10 ^ X.toNat * 2 ^ s ≤ m else 2 ^ s ≤ m * 10 ^ (-X).toNat)
    (hnot : ¬ (if 0 ≤ X + 1 then 10 ^ (X + 1).toNat * 2 ^ s ≤ m
      else 2 ^ s ≤ m * 10 ^ (-(X + 1)).toNat)) :
    ∀ (fuel : Nat) (x : Int), X ≤ x → x - X < fuel → dec_exp m s fuel x = X := by
  intro fuel
  induction fuel with
  | zero => intro x h1 h2; omega
  | succ fuel ih =>
    intro x h1 h2
    by_cases hx : x = X
    · subst hx
      rw [dec_exp, if_pos hX]
    · have hnx : ¬ (if 0 ≤ x then 10 ^ x.toNat * 2 ^ s ≤ m
          else 2 ^ s ≤ m * 10 ^ (-x).toNat) :=
        fun hc => hnot (exp_cond_antitone m s (X + 1) x (by omega) hc)
      rw [dec_exp, if_neg hnx]
      exact ih (x - 1) (by omega) (by omega)

theorem round_half_even_unique (num den q : Nat)
    (h1 : 2 * num < 2 * (q * den) + den) (h2 : 2 * (q * den) < 2 * num + den) :
    round_half_even num den = q := by
  have hden : 0 < den := by
    rcases Nat.eq_zero_or_pos den with h0 | hpos
    · subst h0
      simp at h1
    · exact hpos
  have hdm := Nat.div_add_mod num den
  have hmod := Nat.mod_lt num hden
  unfold round_half_even
  generalize num / den = Q at *
  generalize num % den = R at *
  rw [Nat.mul_comm den Q] at hdm
  have hcases : Q = q ∨ Q + 1 = q := by
    rcases Nat.lt_trichotomy Q q with hlt | heq | hgt
    · right
      by_contra hne
      have h3 : (Q + 2) * den ≤ q * den := Nat.mul_le_mul_right _ (by omega)
      rw [Nat.add_mul] at h3
      omega
    · exact Or.inl heq
    · exfalso
      have h3 : (q + 1) * den ≤ Q * den := Nat.mul_le_mul_right _ (by omega)
      rw [Nat.add_mul] at h3
      omega
  rcases hcases with hq | hq
  · subst hq
    split_ifs <;> omega
  · subst hq
    rw [Nat.add_mul] at h1 h2
    split_ifs <;> omega

theorem digits_core (n m : Nat) (h1 : 1 ≤ n) (h2 : n ≤ 32768)
    (hb1 : 10 * m ≤ n * 2 ^ shift_tenths n + 5) (hb2 : n * 2 ^ shift_tenths n ≤ 10 * m + 5) :
    m ≠ 0 ∧
    dec_exp m (shift_tenths n) 400 16 = exp_tenths n ∧
    six_digits m (shift_tenths n) (exp_tenths n) = n * 10 ^ (4 - exp_tenths n).toNat := by
  have t0 : (0 : Int).toNat = 0 := rfl
  have t1 : (1 : Int).toNat = 1 := rfl
  have t2 : (2 : Int).toNat = 2 := rfl
  have t3 : (3 : Int).toNat = 3 := rfl
  have t4 : (4 : Int).toNat = 4 := rfl
  have t5 : (5 : Int).toNat = 5 := rfl
  have t6 : (6 : Int).toNat = 6 := rfl
  rcases tenths_intervals n h1 h2 with
    h | h | h | h | h | h | h | h | h | h | h | h | h | h | h | h | h | h | h <;>
  (obtain ⟨hlo, hhi⟩ := h
   unfold shift_tenths exp_tenths at *
   repeat (first | rw [if_pos (by omega)] at hb1 | rw [if_neg (by omega)] at hb1)
   repeat (first | rw [if_pos (by omega)] at hb2 | rw [if_neg (by omega)] at hb2)
   repeat (first | rw [if_pos (by omega)] | rw [if_neg (by omega)])
   refine ⟨by omega, ?_, ?_⟩
   · apply dec_exp_eq
     · norm_num [t0, t1, t2, t3, t4, t5, t6]
       omega
     · norm_num [t0, t1, t2, t3, t4, t5, t6]
       omega
     · norm_num
     · norm_num
   · unfold six_digits
     norm_num [t0, t1, t2, t3, t4, t5, t6]
     apply round_half_even_unique <;> omega)
theorem strip_pad_digit : ∀ k, k < 6 → ∀ d, d < 10 →
    strip_zeros (pad_digits (k + 1) (d * 10 ^ k)) =
      if d = 0 then [] else [Nat.digitChar d] := by
  decide!

theorem repr_digit (d : Nat) (h : d < 10) : Nat.repr d = String.mk [Nat.digitChar d] := by
  rw [Nat.repr, toDigits_small d h]
  rfl

theorem style_f_tenths (n k : Nat) (hk : k < 6) :
    Nat.repr (n * 10 ^ k / 10 ^ (k + 1)) ++
      (if strip_zeros (pad_digits (k + 1) (n * 10 ^ k % 10 ^ (k + 1))) = [] then ""
        else "." ++ String.mk (strip_zeros (pad_digits (k + 1) (n * 10 ^ k % 10 ^ (k + 1))))) =
    Nat.repr (n / 10) ++ (if n % 10 = 0 then "" else "." ++ Nat.repr (n % 10)) := by
  have hpos : 0 < 10 ^ k := Nat.one_le_pow _ _ (by decide)
  have e1 : n * 10 ^ k / 10 ^ (k + 1) = n / 10 := by
    rw [Nat.pow_succ, Nat.mul_comm (10 ^ k) 10, Nat.mul_div_mul_right _ _ hpos]
  have e2 : n * 10 ^ k % 10 ^ (k + 1) = n % 10 * 10 ^ k := by
    rw [Nat.pow_succ, Nat.mul_comm (10 ^ k) 10, Nat.mul_mod_mul_right]
  have hd : n % 10 < 10 := Nat.mod_lt _ (by decide)
  rw [e1, e2, strip_pad_digit k hk (n % 10) hd]
  by_cases h0 : n % 10 = 0
  · simp [h0]
  · simp [h0, repr_digit (n % 10) hd]

theorem fmt_g6_of_digits (neg : Bool) (m s n k : Nat) (X : Int) (hm : m ≠ 0)
    (hdec : dec_exp m s 400 16 = X) (hsix : six_digits m s X = n * 10 ^ k)
    (hX : -4 ≤ X ∧ X < 6) (hk : (5 - X).toNat = k + 1) (hn : n * 10 ^ k < 1000000)
    (hk6 : k < 6) :
    fmt_g6 ⟨neg, m, s⟩ =
      (if neg = true then "-" else "") ++ (Nat.repr (n / 10) ++
        (if n % 10 = 0 then "" else "." ++ Nat.repr (n % 10))) := by
  have hne : ¬ n * 10 ^ k = 1000000 := by omega
  have hstyle : ¬ (X < -4 ∨ 6 ≤ X) := by omega
  simp only [fmt_g6, hm, if_false, hdec, hsix, hne, hstyle, hk]
  rw [String.append_assoc, style_f_tenths n k hk6]

theorem exp_tenths_facts (n : Nat) (h1 : 1 ≤ n) (h2 : n ≤ 32768) :
    (-4 ≤ exp_tenths n ∧ exp_tenths n < 6) ∧
    (5 - exp_tenths n).toNat = (4 - exp_tenths n).toNat + 1 ∧
    n * 10 ^ (4 - exp_tenths n).toNat < 1000000 ∧
    (4 - exp_tenths n).toNat < 6 := by
  have t1 : (1 : Int).toNat = 1 := rfl
  have t2 : (2 : Int).toNat = 2 := rfl
  have t3 : (3 : Int).toNat = 3 := rfl
  have t4 : (4 : Int).toNat = 4 := rfl
  have t5 : (5 : Int).toNat = 5 := rfl
  have t6 : (6 : Int).toNat = 6 := rfl
  unfold exp_tenths
  split_ifs <;> norm_num [t1, t2, t3, t4, t5, t6] <;> omega

theorem fmt_g6_div_by_ten (raw : Int) (hlo : -32768 ≤ raw) (hhi : raw ≤ 32767) :
    fmt_g6 (div_by_ten raw) = fmt_tenths raw := by
  by_cases h0 : raw = 0
  · subst h0
    decide
  · have h1 : 1 ≤ raw.natAbs := by omega
    have h2 : raw.natAbs ≤ 32768 := by omega
    have hs := find_shift_eq raw.natAbs h1 h2
    have hb := round_half_even_ten (raw.natAbs * 2 ^ shift_tenths raw.natAbs)
    have hcore := digits_core raw.natAbs _ h1 h2 hb.1 hb.2
    have hf := exp_tenths_facts raw.natAbs h1 h2
    rw [div_by_ten, if_neg h0, hs,
      fmt_g6_of_digits _ _ _ raw.natAbs _ _ hcore.1 hcore.2.1 hcore.2.2 hf.1 hf.2.1 hf.2.2.1
        hf.2.2.2]
    simp only [fmt_tenths, decide_eq_true_eq, String.append_assoc]
theorem div_by_ten_nearest (raw : Int) (h0 : raw ≠ 0) (hlo : -32768 ≤ raw)
    (hhi : raw ≤ 32767) :
    (div_by_ten raw).neg = decide (raw < 0) ∧
    2 ^ 52 ≤ (div_by_ten raw).mant ∧ (div_by_ten raw).mant ≤ 2 ^ 53 ∧
    10 * (div_by_ten raw).mant ≤ raw.natAbs * 2 ^ (div_by_ten raw).shift + 5 ∧
    raw.natAbs * 2 ^ (div_by_ten raw).shift ≤ 10 * (div_by_ten raw).mant + 5 := by
  have h1 : 1 ≤ raw.natAbs := by omega
  have h2 : raw.natAbs ≤ 32768 := by omega
  have hs := find_shift_eq raw.natAbs h1 h2
  have hb := round_half_even_ten (raw.natAbs * 2 ^ shift_tenths raw.natAbs)
  simp only [div_by_ten, if_neg h0, hs]
  refine ⟨trivial, ?_, ?_, hb.1, hb.2⟩ <;>
  (generalize round_half_even (raw.natAbs * 2 ^ shift_tenths raw.natAbs) 10 = m at hb
   generalize raw.natAbs = n at *
   obtain ⟨hb1, hb2⟩ := hb
   rcases tenths_intervals n h1 h2 with
     h | h | h | h | h | h | h | h | h | h | h | h | h | h | h | h | h | h | h <;>
   (obtain ⟨hl, hh⟩ := h
    unfold shift_tenths at hb1 hb2
    repeat (first | rw [if_pos (by omega)] at hb1 | rw [if_neg (by omega)] at hb1)
    repeat (first | rw [if_pos (by omega)] at hb2 | rw [if_neg (by omega)] at hb2)
    omega))

theorem s16_range (b0 b1 : Byte) : -32768 ≤ s16 b0 b1 ∧ s16 b0 b1 ≤ 32767 := by
  have h0 := b0.isLt
  have h1 := b1.isLt
  unfold s16
  split <;> omega

theorem tenths_value (raw : Int) :
    (raw : ℚ) / 10 =
      (if raw < 0 then -1 else 1) *
        (((raw.natAbs / 10 : Nat) : ℚ) + ((raw.natAbs % 10 : Nat) : ℚ) / 10) := by
  have hdm : ((raw.natAbs / 10 : Nat) : ℚ) * 10 + ((raw.natAbs % 10 : Nat) : ℚ) =
      (raw.natAbs : ℚ) := by
    have := Nat.div_add_mod raw.natAbs 10
    have h2 : ((10 * (raw.natAbs / 10) + raw.natAbs % 10 : Nat) : ℚ) = (raw.natAbs : ℚ) := by
      rw [this]
    push_cast at h2
    linarith
  have habs : (raw.natAbs : ℚ) = |(raw : ℚ)| := by
    rw [Nat.cast_natAbs, Int.cast_abs]
  by_cases hneg : raw < 0
  · have hq : (raw : ℚ) < 0 := by exact_mod_cast hneg
    rw [if_pos hneg]
    rw [abs_of_neg hq] at habs
    linarith
  · have hq : (0 : ℚ) ≤ (raw : ℚ) := by exact_mod_cast (not_lt.1 hneg)
    rw [if_neg hneg]
    rw [abs_of_nonneg hq] at habs
    linarith

theorem s16_twos_complement (b0 b1 : Byte) :
    -32768 ≤ s16 b0 b1 ∧ s16 b0 b1 ≤ 32767 ∧
    s16 b0 b1 % 65536 = ((b0.val + 256 * b1.val : Nat) : Int) := by
  have h0 := b0.isLt
  have h1 := b1.isLt
  unfold s16
  split <;> omega

theorem print_target_g6 (t : TargetInfo) (os : OStream)
    (hb : os.basefield = .dec) (hw : os.width = 0)
    (h1 : -32768 ≤ t.vertical_distance ∧ t.vertical_distance ≤ 32767)
    (h2 : -32768 ≤ t.lateral_distance ∧ t.lateral_distance ≤ 32767)
    (h3 : -32768 ≤ t.speed_y ∧ t.speed_y ≤ 32767)
    (h4 : -32768 ≤ t.front_spacing ∧ t.front_spacing ≤ 32767)
    (h5 : -32768 ≤ t.front_time_interval ∧ t.front_time_interval ≤ 32767)
    (h6 : -32768 ≤ t.speed_x ∧ t.speed_x ≤ 32767)
    (h7 : -32768 ≤ t.heading_angle ∧ t.heading_angle ≤ 32767) :
    print_target os t =
      ⟨os.buf ++ unlines
        ["Target " ++ Nat.repr t.target_id.val ++ ":",
         "  Vertical: " ++ fmt_g6 (div_by_ten t.vertical_distance) ++ " m",
         "  Lateral: " ++ fmt_g6 (div_by_ten t.lateral_distance) ++ " m",
         "  Speed Y: " ++ fmt_g6 (div_by_ten t.speed_y) ++ " m/s",
         "  Type: " ++ get_target_type t.target_type,
         "  Lane: " ++ lane_text t.lane_number,
         "  Front space: " ++ fmt_g6 (div_by_ten t.front_spacing) ++ " m",
         "  Front time: " ++ fmt_g6 (div_by_ten t.front_time_interval) ++ " s",
         "  Speed X: " ++ fmt_g6 (div_by_ten t.speed_x) ++ " m/s",
         "  Heading: " ++ fmt_g6 (div_by_ten t.heading_angle) ++ " deg",
         "  Events: 0x" ++ hex2 t.events,
         "----------------"], .dec, '0', 0⟩ := by
  rw [print_target_lines os t hb hw, fmt_g6_div_by_ten _ h1.1 h1.2,
    fmt_g6_div_by_ten _ h2.1 h2.2, fmt_g6_div_by_ten _ h3.1 h3.2,
    fmt_g6_div_by_ten _ h4.1 h4.2, fmt_g6_div_by_ten _ h5.1 h5.2,
    fmt_g6_div_by_ten _ h6.1 h6.2, fmt_g6_div_by_ten _ h7.1 h7.2]
  rfl

/-! ## The claims -/

/-- Claim C1. A block of at least 4 bytes that begins with `0x4D 0x42` and whose
declared length (bytes 2 and 3, little-endian) is below 2, or whose declared
length minus 2 exceeds the block length minus 4, makes `parse_4d42_block` throw
`std::invalid_argument("Invalid data length")`, with nothing written. -/
theorem parse_4d42_block_invalid_length (block : List Byte) (os : OStream)
    (h4 : 4 ≤ block.length) (h0 : block[0]? = some 0x4D) (h1 : block[1]? = some 0x42)
    (hbad : declared_length block < 2 ∨
      (declared_length block : Int) - 2 > (block.length : Int) - 4) :
    parse_4d42_block block block.length os =
      ⟨os, some (.invalid_argument "Invalid data length")⟩ := by
  obtain ⟨b2, b3, rest, rfl⟩ := block_shape block h4 h0 h1
  rw [declared_length_cons] at hbad
  simp only [List.length_cons] at hbad ⊢
  exact parse_rejected b2 b3 rest os (by omega)

/-- Claim C1, at the block `4D 42 00 00` (declared length 0). -/
theorem parse_4d42_block_invalid_length_witness :
    (declared_length [0x4D, 0x42, 0, 0] < 2 ∨
      (declared_length [0x4D, 0x42, 0, 0] : Int) - 2 >
        (([0x4D, 0x42, 0, 0] : List Byte).length : Int) - 4) ∧
    parse_4d42_block [0x4D, 0x42, 0, 0] ([0x4D, 0x42, 0, 0] : List Byte).length OStream.fresh =
      ⟨OStream.fresh, some (.invalid_argument "Invalid data length")⟩ :=
  ⟨by decide,
    parse_4d42_block_invalid_length [0x4D, 0x42, 0, 0] OStream.fresh (by decide) (by decide)
      (by decide) (by decide)⟩

/-- Claim C2 fails as stated: the block `4D 42 02 00` has 4 bytes, begins with the
marker, and its declared length 2 satisfies `declared_length >= 2` and
`declared_length - 2 <= len(block) - 4`, yet `parse_4d42_block` throws
"Invalid data length". -/
theorem parse_4d42_block_spec_invariant_rejected :
    4 ≤ ([0x4D, 0x42, 2, 0] : List Byte).length ∧
    ([0x4D, 0x42, 2, 0] : List Byte)[0]? = some 0x4D ∧
    ([0x4D, 0x42, 2, 0] : List Byte)[1]? = some 0x42 ∧
    declared_length [0x4D, 0x42, 2, 0] ≥ 2 ∧
    declared_length [0x4D, 0x42, 2, 0] - 2 ≤ ([0x4D, 0x42, 2, 0] : List Byte).length - 4 ∧
    parse_4d42_block [0x4D, 0x42, 2, 0] ([0x4D, 0x42, 2, 0] : List Byte).length OStream.fresh =
      ⟨OStream.fresh, some (.invalid_argument "Invalid data length")⟩ := by
  decide

/-- Claim C2, amended. A block of at least 4 bytes that begins with `0x4D 0x42`
and whose declared length is at least 2 and at most the block length minus 4 is
decoded without failure, and the report is the one the specification prescribes
for the payload slice `block[4 .. 4 + (declared_length - 2)]`: every decoded
record lies in that slice. -/
theorem parse_4d42_block_accepts (block : List Byte) (h : accepted block) :
    (parse_4d42_block block block.length OStream.fresh).exn = none ∧
    (parse_4d42_block block block.length OStream.fresh).os.buf =
      report_of_payload (payload_of block) ∧
    (payload_of block).length = declared_length block - 2 ∧
    (records (payload_of block) 0
      (min ((payload_of block).length / sizeof_TargetInfo) 128)).length =
        min ((payload_of block).length / sizeof_TargetInfo) 128 := by
  obtain ⟨b2, b3, rest, rfl, hlo, hhi⟩ := accepted_shape block h
  have hacc := parse_accepted b2 b3 rest OStream.fresh rfl rfl hlo hhi
  have hlen : (rest.take (b2.val + 256 * b3.val - 2)).length = b2.val + 256 * b3.val - 2 := by
    rw [List.length_take]
    omega
  have hrec : records (rest.take (b2.val + 256 * b3.val - 2)) 0
      (min ((b2.val + 256 * b3.val - 2) / sizeof_TargetInfo) 128) =
      records rest 0 (min ((b2.val + 256 * b3.val - 2) / sizeof_TargetInfo) 128) := by
    apply records_take
    have h1 := Nat.div_mul_le_self (b2.val + 256 * b3.val - 2) sizeof_TargetInfo
    have h2 : min ((b2.val + 256 * b3.val - 2) / sizeof_TargetInfo) 128 * sizeof_TargetInfo ≤
        (b2.val + 256 * b3.val - 2) / sizeof_TargetInfo * sizeof_TargetInfo :=
      Nat.mul_le_mul_right _ (Nat.min_le_left _ _)
    rw [Nat.zero_add]
    omega
  simp only [List.length_cons, payload_of_cons, declared_length_cons, hlen, hrec]
  refine ⟨by rw [hacc.1], ?_, trivial, hacc.2⟩
  rw [hacc.1]
  simp [report_of_payload, hlen, hrec, OStream.fresh, String.append_assoc]

/-- Claim C2, amended, at a block with one record. -/
theorem parse_4d42_block_accepts_witness :
    accepted block_one_record ∧
    (parse_4d42_block block_one_record block_one_record.length OStream.fresh).exn = none ∧
    (parse_4d42_block block_one_record block_one_record.length OStream.fresh).os.buf =
      report_of_payload (payload_of block_one_record) :=
  ⟨by decide, (parse_4d42_block_accepts block_one_record (by decide)).1,
    (parse_4d42_block_accepts block_one_record (by decide)).2.1⟩


/-- Claim C3 fails as stated: the block `4D 42 02 00 00` has at least 4 bytes,
begins with the marker and declares length 2, yet `parse_4d42_block` throws
"Invalid data length" and writes nothing, so its output is not the line
"Found 0 targets:". -/
theorem parse_4d42_block_length_two_rejected :
    4 ≤ ([0x4D, 0x42, 2, 0, 0] : List Byte).length ∧
    ([0x4D, 0x42, 2, 0, 0] : List Byte)[0]? = some 0x4D ∧
    ([0x4D, 0x42, 2, 0, 0] : List Byte)[1]? = some 0x42 ∧
    declared_length [0x4D, 0x42, 2, 0, 0] = 2 ∧
    parse_4d42_block [0x4D, 0x42, 2, 0, 0] ([0x4D, 0x42, 2, 0, 0] : List Byte).length
      OStream.fresh = ⟨OStream.fresh, some (.invalid_argument "Invalid data length")⟩ ∧
    (parse_4d42_block [0x4D, 0x42, 2, 0, 0] ([0x4D, 0x42, 2, 0, 0] : List Byte).length
      OStream.fresh).os.buf ≠ "Found 0 targets:\n" := by
  decide

/-- Claim C3, amended. For a block of at least 6 bytes that begins with
`0x4D 0x42` and declares length 2, the payload is empty, the record count is 0,
and `parse_4d42_block` writes exactly the line "Found 0 targets:" and does not
throw. -/
theorem parse_4d42_block_length_two (block : List Byte)
    (h6 : 6 ≤ block.length) (h0 : block[0]? = some 0x4D) (h1 : block[1]? = some 0x42)
    (hdl : declared_length block = 2) :
    payload_of block = [] ∧
    (payload_of block).length / sizeof_TargetInfo = 0 ∧
    parse_4d42_block block block.length OStream.fresh =
      ⟨⟨"Found 0 targets:\n", .dec, ' ', 0⟩, none⟩ := by
  obtain ⟨b2, b3, rest, rfl⟩ := block_shape block (by omega) h0 h1
  rw [declared_length_cons] at hdl
  simp only [List.length_cons] at h6 ⊢
  have hacc := parse_accepted b2 b3 rest OStream.fresh rfl rfl (by omega) (by omega)
  rw [hdl] at hacc
  have hz : (2 - 2) / sizeof_TargetInfo = 0 := by decide
  rw [hz] at hacc
  refine ⟨?_, ?_, ?_⟩
  · rw [payload_of_cons, hdl]; rfl
  · rw [payload_of_cons, hdl]; simp
  · rw [hacc.1]; rfl

/-- Claim C3, amended, at the block `4D 42 02 00 AA BB`. -/
theorem parse_4d42_block_length_two_witness :
    (6 ≤ ([0x4D, 0x42, 2, 0, 0xAA, 0xBB] : List Byte).length ∧
      declared_length [0x4D, 0x42, 2, 0, 0xAA, 0xBB] = 2) ∧
    (payload_of [0x4D, 0x42, 2, 0, 0xAA, 0xBB] = [] ∧
      (payload_of [0x4D, 0x42, 2, 0, 0xAA, 0xBB]).length / sizeof_TargetInfo = 0 ∧
      parse_4d42_block [0x4D, 0x42, 2, 0, 0xAA, 0xBB]
        ([0x4D, 0x42, 2, 0, 0xAA, 0xBB] : List Byte).length OStream.fresh =
        ⟨⟨"Found 0 targets:\n", .dec, ' ', 0⟩, none⟩) :=
  ⟨by decide,
    parse_4d42_block_length_two [0x4D, 0x42, 2, 0, 0xAA, 0xBB] (by decide) (by decide)
      (by decide) (by decide)⟩

/-- Claim C7. For an accepted block, with `M` the payload length divided by
`sizeof(TargetInfo)` and `N = min(M, 128)`: the call does not throw, `N` is at most
128, and the output is the line "Found N targets:" followed by exactly `N` record
groups, preceded by the warning line naming `M` and the truncation to 128 exactly
when `M > 128` (and then `N` is 128). -/
theorem parse_4d42_block_count (block : List Byte) (h : accepted block) :
    (parse_4d42_block block block.length OStream.fresh).exn = none ∧
    min ((payload_of block).length / sizeof_TargetInfo) 128 ≤ 128 ∧
    ((payload_of block).length / sizeof_TargetInfo ≤ 128 →
      (parse_4d42_block block block.length OStream.fresh).os.buf =
        "Found " ++ Nat.repr (min ((payload_of block).length / sizeof_TargetInfo) 128) ++
          " targets:\n" ++
          groups_text (records (block.drop 4) 0
            (min ((payload_of block).length / sizeof_TargetInfo) 128)) ∧
      (records (block.drop 4) 0
        (min ((payload_of block).length / sizeof_TargetInfo) 128)).length =
          min ((payload_of block).length / sizeof_TargetInfo) 128) ∧
    (128 < (payload_of block).length / sizeof_TargetInfo →
      min ((payload_of block).length / sizeof_TargetInfo) 128 = 128 ∧
      (parse_4d42_block block block.length OStream.fresh).os.buf =
        "Warning: Invalid number of targets (" ++
          Nat.repr ((payload_of block).length / sizeof_TargetInfo) ++
          "), truncating to 128\n" ++ "Found 128 targets:\n" ++
          groups_text (records (block.drop 4) 0 128) ∧
      (records (block.drop 4) 0 128).length = 128) := by
  have hrep := parse_accepted_report block h _ rfl
  refine ⟨hrep.1, Nat.min_le_right _ _, ?_, ?_⟩
  · intro hle
    rw [Nat.min_eq_left hle]
    exact hrep.2.1 hle
  · intro hbig
    exact ⟨Nat.min_eq_right (Nat.le_of_lt hbig), hrep.2.2 hbig⟩

/-- Claim C7, at a block with 129 records: the warning names 129 and 128 records
are decoded. -/
theorem parse_4d42_block_count_witness :
    (accepted block_129_records ∧
      128 < (payload_of block_129_records).length / sizeof_TargetInfo) ∧
    (parse_4d42_block block_129_records block_129_records.length OStream.fresh).exn = none ∧
    (parse_4d42_block block_129_records block_129_records.length OStream.fresh).os.buf =
      "Warning: Invalid number of targets (" ++ Nat.repr 129 ++ "), truncating to 128\n" ++
        "Found 128 targets:\n" ++ groups_text (records (block_129_records.drop 4) 0 128) ∧
    (records (block_129_records.drop 4) 0 128).length = 128 := by
  have hbig : 128 < (payload_of block_129_records).length / sizeof_TargetInfo := by
    rw [count_129]
    decide
  have h := parse_4d42_block_count block_129_records accepted_129
  have hw := h.2.2.2 hbig
  rw [count_129] at hw
  exact ⟨⟨accepted_129, hbig⟩, h.1, hw.2.1, hw.2.2⟩

set_option maxRecDepth 100000 in
/-- Claim C8 fails as stated: a payload of exactly `2 * 44` bytes is decoded into 3
records, not 2, and the report begins "Found 3 targets:". -/
theorem parse_4d42_block_two_by_44 :
    accepted block_two_by_44 ∧
    (payload_of block_two_by_44).length = 2 * 44 ∧
    (parse_4d42_block block_two_by_44 block_two_by_44.length OStream.fresh).os.buf =
      "Found 3 targets:\n" ++ groups_text (records (block_two_by_44.drop 4) 0 3) ∧
    (records (block_two_by_44.drop 4) 0 3).length = 3 ∧
    (parse_4d42_block block_two_by_44 block_two_by_44.length OStream.fresh).os.buf ≠
      "Found 2 targets:\n" ++ groups_text (records (block_two_by_44.drop 4) 0 2) := by
  decide

/-- Claim C8, amended. For an accepted block whose payload has exactly `k * 29`
bytes, 29 being `sizeof(TargetInfo)`: if `k <= 128` the report is
"Found k targets:" followed by exactly `k` record groups; if `k > 128` it is the
warning line naming `k`, then "Found 128 targets:" and exactly 128 record groups. -/
theorem parse_4d42_block_exact_multiple (block : List Byte) (k : Nat) (h : accepted block)
    (hk : (payload_of block).length = k * 29) :
    sizeof_TargetInfo = 29 ∧
    (k ≤ 128 →
      (parse_4d42_block block block.length OStream.fresh).os.buf =
        "Found " ++ Nat.repr k ++ " targets:\n" ++ groups_text (records (block.drop 4) 0 k) ∧
      (records (block.drop 4) 0 k).length = k) ∧
    (128 < k →
      (parse_4d42_block block block.length OStream.fresh).os.buf =
        "Warning: Invalid number of targets (" ++ Nat.repr k ++ "), truncating to 128\n" ++
          "Found 128 targets:\n" ++ groups_text (records (block.drop 4) 0 128) ∧
      (records (block.drop 4) 0 128).length = 128) := by
  have hM : (payload_of block).length / sizeof_TargetInfo = k := by
    rw [hk, sizeof_TargetInfo_eq]
    omega
  exact ⟨sizeof_TargetInfo_eq, (parse_accepted_report block h k hM).2⟩

/-- Claim C8, amended, at a block with one record (`k = 1`). -/
theorem parse_4d42_block_exact_multiple_witness :
    (accepted block_one_record ∧ (payload_of block_one_record).length = 1 * 29) ∧
    (records (block_one_record.drop 4) 0 1).length = 1 :=
  ⟨by decide,
    ((parse_4d42_block_exact_multiple block_one_record 1 (by decide) (by decide)).2.1
      (by decide)).2⟩

/-- Claim C9 fails as stated: `sizeof(TargetInfo)` is not 44. -/
theorem sizeof_TargetInfo_ne_44 : sizeof_TargetInfo ≠ 44 := by
  decide

/-- Claim C9, amended. The record size used to partition the payload, the width
of the packed `TargetInfo`, is the sum 1+2+2+2+1+1+2+2+2+2+1+4+4+1+1+1 of its
member widths with no padding, which is 29 bytes. -/
theorem sizeof_TargetInfo_is_29 :
    TargetInfo_fields.map Field.width = [1, 2, 2, 2, 1, 1, 2, 2, 2, 2, 1, 4, 4, 1, 1, 1] ∧
    sizeof_TargetInfo = 1 + 2 + 2 + 2 + 1 + 1 + 2 + 2 + 2 + 2 + 1 + 4 + 4 + 1 + 1 + 1 ∧
    sizeof_TargetInfo = 29 ∧
    offsetof .car_width + Field.width .car_width = sizeof_TargetInfo := by
  decide

/-- Claim C4. When no index `i` has `data[i] = 0x4D` and `data[i+1] = 0x42` (the
empty and the one-byte buffers included), the whole output of
`find_and_parse_4d42` on a new stream is the line "4D42 block not found", and
no exception leaves the call. -/
theorem find_and_parse_4d42_not_found (data : List Byte) (h : ∀ i, ¬ marker_at data i) :
    find_and_parse_4d42 data OStream.fresh =
      ⟨⟨"4D42 block not found\n", .dec, ' ', 0⟩, none⟩ := by
  rw [find_and_parse_4d42, find_not_found parse_4d42_block data OStream.fresh h]
  rfl

/-- Claim C4, at the buffer `42 4D` (the marker bytes in the wrong order). -/
theorem find_and_parse_4d42_not_found_witness :
    (∀ i, ¬ marker_at [0x42, 0x4D] i) ∧
    find_and_parse_4d42 [0x42, 0x4D] OStream.fresh =
      ⟨⟨"4D42 block not found\n", .dec, ' ', 0⟩, none⟩ :=
  ⟨by intro i; rcases i with _ | _ | i <;> simp [marker_at],
    find_and_parse_4d42_not_found [0x42, 0x4D]
      (by intro i; rcases i with _ | _ | i <;> simp [marker_at])⟩

/-- Claim C5. When the first marker of the buffer stands at offset `i` and fewer
than 4 bytes remain from `i`, the whole output of `find_and_parse_4d42` is the line
"Incomplete 4D42 header", which is not the line of the not-found outcome; the
same holds whatever decoder stands at the call site, so the decoder is not used. -/
theorem find_and_parse_4d42_incomplete (data : List Byte) (i : Nat)
    (hm : marker_at data i) (hmin : ∀ j, j < i → ¬ marker_at data j)
    (h4 : data.length - i < 4) :
    find_and_parse_4d42 data OStream.fresh =
      ⟨⟨"Incomplete 4D42 header\n", .dec, ' ', 0⟩, none⟩ ∧
    (∀ parse : List Byte → Nat → OStream → Outcome,
      find_and_parse_4d42_with parse data OStream.fresh =
        ⟨⟨"Incomplete 4D42 header\n", .dec, ' ', 0⟩, none⟩) ∧
    "Incomplete 4D42 header\n" ≠ "4D42 block not found\n" := by
  refine ⟨?_, ?_, by decide⟩
  · rw [find_and_parse_4d42, find_incomplete parse_4d42_block data i OStream.fresh hm hmin h4]
    rfl
  · intro parse
    rw [find_incomplete parse data i OStream.fresh hm hmin h4]
    rfl

/-- Claim C5, at the buffer `01 4D 42 09`: the marker at offset 1, 3 bytes left. -/
theorem find_and_parse_4d42_incomplete_witness :
    (marker_at [1, 0x4D, 0x42, 9] 1 ∧ (∀ j, j < 1 → ¬ marker_at [1, 0x4D, 0x42, 9] j) ∧
      ([1, 0x4D, 0x42, 9] : List Byte).length - 1 < 4) ∧
    find_and_parse_4d42 [1, 0x4D, 0x42, 9] OStream.fresh =
      ⟨⟨"Incomplete 4D42 header\n", .dec, ' ', 0⟩, none⟩ :=
  ⟨⟨by simp [marker_at],
      by intro j hj; obtain rfl : j = 0 := by omega
         simp [marker_at],
      by decide⟩,
    (find_and_parse_4d42_incomplete [1, 0x4D, 0x42, 9] 1 (by simp [marker_at])
      (by intro j hj; obtain rfl : j = 0 := by omega
          simp [marker_at])
      (by decide)).1⟩

/-- Claim C6. When `i` is the least index with the marker and at least 4 bytes
remain from `i`, the output of `find_and_parse_4d42` is what `parse_4d42_block`
makes of the sub-slice from `i` to the end: its report when it does not throw, the
line "Error parsing block: " with the message when it throws; it never reads
outside the buffer.  A later marker plays no part, also after a rejection. -/
theorem find_and_parse_4d42_first_marker (data : List Byte) (i : Nat)
    (hm : marker_at data i) (hmin : ∀ j, j < i → ¬ marker_at data j)
    (h4 : 4 ≤ data.length - i) :
    ((parse_4d42_block (data.drop i) (data.length - i) OStream.fresh).exn = none →
      find_and_parse_4d42 data OStream.fresh =
        parse_4d42_block (data.drop i) (data.length - i) OStream.fresh) ∧
    (∀ msg, (parse_4d42_block (data.drop i) (data.length - i) OStream.fresh).exn =
        some (.invalid_argument msg) →
      find_and_parse_4d42 data OStream.fresh =
        ⟨⟨"Error parsing block: " ++ msg ++ "\n", .dec, ' ', 0⟩, none⟩) ∧
    (parse_4d42_block (data.drop i) (data.length - i) OStream.fresh).exn ≠
      some .out_of_bounds := by
  rcases find_at_marker_cases data i hm hmin h4 with ⟨hrej, hfind⟩ | ⟨hok, hfind⟩
  · refine ⟨?_, ?_, ?_⟩
    · intro hnone
      rw [hrej] at hnone
      exact absurd hnone (by simp)
    · intro msg hmsg
      rw [hrej] at hmsg
      simp only [Option.some.injEq, Exn.invalid_argument.injEq] at hmsg
      rw [hfind, ← hmsg]
      rfl
    · rw [hrej]
      simp
  · refine ⟨fun _ => hfind, ?_, ?_⟩
    · intro msg hmsg
      rw [hok] at hmsg
      exact absurd hmsg (by simp)
    · rw [hok]
      simp

/-- Claim C6, at a buffer whose first block is rejected and whose second block is
well formed: the output is the error line of the first. -/
theorem find_and_parse_4d42_first_marker_witness :
    (marker_at two_markers 1 ∧ (∀ j, j < 1 → ¬ marker_at two_markers j) ∧
      4 ≤ two_markers.length - 1) ∧
    find_and_parse_4d42 two_markers OStream.fresh =
      ⟨⟨"Error parsing block: " ++ "Invalid data length" ++ "\n", .dec, ' ', 0⟩, none⟩ :=
  ⟨⟨by simp [marker_at, two_markers],
      by intro j hj; obtain rfl : j = 0 := by omega
         simp [marker_at, two_markers],
      by decide⟩,
    (find_and_parse_4d42_first_marker two_markers 1 (by simp [marker_at, two_markers])
      (by intro j hj; obtain rfl : j = 0 := by omega
          simp [marker_at, two_markers])
      (by decide)).2.1 "Invalid data length" (by decide)⟩

/-- Claim C10. For every buffer no exception leaves `find_and_parse_4d42`; and
when the decode of the block at the first marker throws, the exception is a
`std::invalid_argument`, the decoder has written nothing, and the whole output is
the one line "Error parsing block: " with the message. -/
theorem find_and_parse_4d42_error_line_only (data : List Byte) :
    (find_and_parse_4d42 data OStream.fresh).exn = none ∧
    ∀ i, marker_at data i → (∀ j, j < i → ¬ marker_at data j) → 4 ≤ data.length - i →
      ∀ e, (parse_4d42_block (data.drop i) (data.length - i) OStream.fresh).exn = some e →
        ∃ msg, e = .invalid_argument msg ∧
          (parse_4d42_block (data.drop i) (data.length - i) OStream.fresh).os =
            OStream.fresh ∧
          (find_and_parse_4d42 data OStream.fresh).os.buf =
            "Error parsing block: " ++ msg ++ "\n" := by
  constructor
  · by_cases hs : std_search data pattern = data.length
    · simp only [find_and_parse_4d42, find_and_parse_4d42_with, hs, if_true]
    · have hle := std_search_le data
      have hm := std_search_marker data (by omega)
      have hmin := std_search_min data
      by_cases h4 : data.length - std_search data pattern < 4
      · rw [find_and_parse_4d42, find_incomplete parse_4d42_block data _ OStream.fresh hm hmin h4]
      · rcases find_at_marker_cases data _ hm hmin (by omega) with ⟨_, hfind⟩ | ⟨hok, hfind⟩
        · rw [hfind]
        · rw [hfind, hok]
  · intro i hm hmin h4 e he
    rcases find_at_marker_cases data i hm hmin h4 with ⟨hrej, hfind⟩ | ⟨hok, _⟩
    · rw [hrej] at he ⊢
      simp only [Option.some.injEq] at he
      exact ⟨"Invalid data length", he.symm, rfl, by rw [hfind]; rfl⟩
    · rw [hok] at he
      exact absurd he (by simp)

/-- Claim C10, at the buffer `4D 42 FF FF 00`: the declared length 65535 exceeds
the bytes that follow. -/
theorem find_and_parse_4d42_error_line_only_witness :
    (find_and_parse_4d42 [0x4D, 0x42, 0xFF, 0xFF, 0] OStream.fresh).exn = none ∧
    ∃ msg, Exn.invalid_argument "Invalid data length" = .invalid_argument msg ∧
      (parse_4d42_block (([0x4D, 0x42, 0xFF, 0xFF, 0] : List Byte).drop 0)
        (([0x4D, 0x42, 0xFF, 0xFF, 0] : List Byte).length - 0) OStream.fresh).os =
        OStream.fresh ∧
      (find_and_parse_4d42 [0x4D, 0x42, 0xFF, 0xFF, 0] OStream.fresh).os.buf =
        "Error parsing block: " ++ msg ++ "\n" :=
  ⟨(find_and_parse_4d42_error_line_only [0x4D, 0x42, 0xFF, 0xFF, 0]).1,
    (find_and_parse_4d42_error_line_only [0x4D, 0x42, 0xFF, 0xFF, 0]).2 0
      (by simp [marker_at]) (fun j hj => absurd hj (Nat.not_lt_zero j)) (by decide)
      (.invalid_argument "Invalid data length") (by decide)⟩

/-- Claim C11. `get_target_type` is a total function of a byte: it gives
"Small car", "Pedestrian", "Non-motor vehicles", "Medium-sized car", "Large car"
for 0 to 4, and for every other byte `v` the text "Unknown (v)" with `v` in decimal;
9 gives "Unknown (9)". -/
theorem get_target_type_labels :
    get_target_type 0 = "Small car" ∧
    get_target_type 1 = "Pedestrian" ∧
    get_target_type 2 = "Non-motor vehicles" ∧
    get_target_type 3 = "Medium-sized car" ∧
    get_target_type 4 = "Large car" ∧
    (∀ v : Byte, 5 ≤ v.val →
      get_target_type v = "Unknown (" ++ Nat.repr v.val ++ ")" ∧
      decimal_value (Nat.repr v.val) = v.val) ∧
    get_target_type 9 = "Unknown (9)" :=
  ⟨rfl, rfl, rfl, rfl, rfl, fun v hv => ⟨unknown_label v hv, decimal_value_repr v.val⟩, rfl⟩

/-- Claim C11, at the byte 200. -/
theorem get_target_type_labels_witness :
    5 ≤ (200 : Byte).val ∧ get_target_type 200 = "Unknown (" ++ Nat.repr 200 ++ ")" :=
  ⟨by decide, (get_target_type_labels.2.2.2.2.2.1 200 (by decide)).1⟩

/-- Claim C12. The loop body writes for a record the twelve lines of
`target_lines`, whatever fill character earlier records left in the stream; the
sixth is "  Lane: " followed by the lane byte `v` as a plain decimal number when
`1 <= v <= 8` and by "Invalid (v)" otherwise, which is never the plain number.
Lanes 0 and 9 give "Invalid (0)" and "Invalid (9)", lanes 1 and 8 give "1" and "8".
No lane value makes an accepted block fail or shortens the list of decoded
records. -/
theorem lane_line (t : TargetInfo) (os : OStream)
    (hb : os.basefield = .dec) (hw : os.width = 0) :
    print_target os t = ⟨os.buf ++ unlines (target_lines t), .dec, '0', 0⟩ ∧
    (target_lines t)[5]? = some ("  Lane: " ++ lane_text t.lane_number) ∧
    (1 ≤ t.lane_number.val ∧ t.lane_number.val ≤ 8 →
      lane_text t.lane_number = Nat.repr t.lane_number.val) ∧
    (¬ (1 ≤ t.lane_number.val ∧ t.lane_number.val ≤ 8) →
      lane_text t.lane_number = "Invalid (" ++ Nat.repr t.lane_number.val ++ ")") ∧
    "Invalid (" ++ Nat.repr t.lane_number.val ++ ")" ≠ Nat.repr t.lane_number.val ∧
    decimal_value (Nat.repr t.lane_number.val) = t.lane_number.val ∧
    (lane_text 0 = "Invalid (0)" ∧ lane_text 9 = "Invalid (9)" ∧
      lane_text 1 = "1" ∧ lane_text 8 = "8") ∧
    (∀ block : List Byte, accepted block →
      (parse_4d42_block block block.length OStream.fresh).exn = none ∧
      (parse_4d42_block block block.length OStream.fresh).os.buf =
        report_head block ++ groups_text (decoded block) ∧
      (decoded block).length = decoded_count block) := by
  refine ⟨print_target_lines os t hb hw, rfl, ?_, ?_, invalid_ne_plain _,
    decimal_value_repr _, ⟨rfl, rfl, rfl, rfl⟩, ?_⟩
  · intro h
    simp only [lane_text, h, and_self, if_true]
  · intro h
    simp only [lane_text, h, if_false]
  · intro block hacc
    have hrep := report_eq block hacc
    exact ⟨by rw [hrep.1], by rw [hrep.1], hrep.2⟩

/-- Claim C12, at a record with lane 0, written after another record. -/
theorem lane_line_witness :
    (print_target (print_target OStream.fresh sample_record) sample_record).buf =
      (print_target OStream.fresh sample_record).buf ++ unlines (target_lines sample_record) ∧
    (target_lines sample_record)[5]? = some "  Lane: Invalid (0)" :=
  ⟨congrArg OStream.buf
      (lane_line sample_record (print_target OStream.fresh sample_record) (by decide)
        (by decide)).1,
    (lane_line sample_record (print_target OStream.fresh sample_record) (by decide)
      (by decide)).2.1⟩

/-- Claim C13. For every record, wherever it stands in the report, the loop body
writes the twelve lines of `target_lines` and leaves the stream decimal with width
0; the eleventh line is "  Events: 0x" followed by exactly two hexadecimal digits,
the high and the low nibble of the events byte, whose value is that byte.  The
byte `0x0A` gives "0a". -/
theorem events_line (t : TargetInfo) (os : OStream)
    (hb : os.basefield = .dec) (hw : os.width = 0) :
    print_target os t = ⟨os.buf ++ unlines (target_lines t), .dec, '0', 0⟩ ∧
    (target_lines t)[10]? = some ("  Events: 0x" ++ hex2 t.events) ∧
    hex2 t.events =
      String.mk [Nat.digitChar (t.events.val / 16), Nat.digitChar (t.events.val % 16)] ∧
    (hex2 t.events).length = 2 ∧
    t.events.val / 16 < 16 ∧ t.events.val % 16 < 16 ∧
    hex_value (hex2 t.events) = t.events.val ∧
    hex2 0x0A = "0a" ∧
    (∀ block : List Byte, accepted block →
      (parse_4d42_block block block.length OStream.fresh).os.buf =
        report_head block ++
          ((decoded block).map fun r => unlines (target_lines r)).foldr
            (fun a b => a ++ b) "") := by
  refine ⟨print_target_lines os t hb hw, rfl, rfl, rfl, ?_, ?_, hex_value_hex2 _, rfl, ?_⟩
  · have := t.events.isLt
    omega
  · omega
  · intro block hacc
    rw [(report_eq block hacc).1, groups_text_lines]

/-- Claim C13, at a record with events `0x0A`, written after another record. -/
theorem events_line_witness :
    (print_target (print_target OStream.fresh sample_record) sample_record).buf =
      (print_target OStream.fresh sample_record).buf ++ unlines (target_lines sample_record) ∧
    (target_lines sample_record)[10]? = some "  Events: 0x0a" :=
  ⟨congrArg OStream.buf
      (events_line sample_record (print_target OStream.fresh sample_record) (by decide)
        (by decide)).1,
    (events_line sample_record (print_target OStream.fresh sample_record) (by decide)
      (by decide)).2.1⟩

/-- Claim C15. The report of an accepted block with `N` decoded records is the
optional truncation warning line, the line "Found N targets:", and then, for the
records in payload order, one group of exactly 12 lines each, in the order
Target, Vertical, Lateral, Speed Y, Type, Lane, Front space, Front time, Speed X,
Heading, Events, "----------------".  A group is the same text wherever the loop
body writes it (the stream is decimal with width 0 before and after every record),
and the report has `1 + 12 * N` line ends, one more with the warning. -/
theorem report_structure (block : List Byte) (h : accepted block) :
    (parse_4d42_block block block.length OStream.fresh).exn = none ∧
    (parse_4d42_block block block.length OStream.fresh).os.buf =
      report_head block ++
        ((decoded block).map fun r => unlines (target_lines r)).foldr
          (fun a b => a ++ b) "" ∧
    report_head block =
      (if 128 < record_count block then
        "Warning: Invalid number of targets (" ++ Nat.repr (record_count block) ++
          "), truncating to 128\n" else "") ++
      "Found " ++ Nat.repr (decoded_count block) ++ " targets:\n" ∧
    (decoded block).length = decoded_count block ∧
    (∀ i, i < decoded_count block → (decoded block)[i]? = TargetInfo_at (block.drop 4) i) ∧
    (∀ r : TargetInfo, (target_lines r).length = 12 ∧
      newlines (unlines (target_lines r)) = 12 ∧
      ∀ os : OStream, os.basefield = .dec → os.width = 0 →
        print_target os r = ⟨os.buf ++ unlines (target_lines r), .dec, '0', 0⟩) ∧
    newlines (parse_4d42_block block block.length OStream.fresh).os.buf =
      (if 128 < record_count block then 1 else 0) + 1 + 12 * decoded_count block := by
  have hrep := report_eq block h
  have hb := decoded_in_bounds block h
  refine ⟨by rw [hrep.1], by rw [hrep.1, groups_text_lines], rfl, hrep.2, ?_, ?_, ?_⟩
  · intro i hi
    have := records_getElem? (block.drop 4) (decoded_count block) 0 i hb.2.2.2 hi
    rw [Nat.zero_add] at this
    exact this
  · intro r
    exact ⟨rfl, newlines_target_lines r, fun os hb hw => print_target_lines os r hb hw⟩
  · rw [hrep.1, groups_text_lines]
    simp only [newlines_append, newlines_report_head, newlines_groups, hrep.2]

/-- Claim C15, at a block with 129 records: a warning line, the "Found" line and
128 groups, 1538 line ends in all. -/
theorem report_structure_witness :
    accepted block_129_records ∧
    newlines (parse_4d42_block block_129_records block_129_records.length
      OStream.fresh).os.buf = 1 + 1 + 12 * 128 := by
  have h := (report_structure block_129_records accepted_129).2.2.2.2.2.2
  have hM : record_count block_129_records = 129 := count_129
  have hN : decoded_count block_129_records = 128 := by
    rw [decoded_count, hM]
    decide
  rw [hM, hN] at h
  exact ⟨accepted_129, h⟩

/-- Claim C17. No read leaves the buffer: `find_and_parse_4d42` ends without an
out-of-bounds read on every buffer, and so does `parse_4d42_block` whenever its
`size` argument does not exceed the memory behind its pointer.  For an accepted
block every decoded record `i < N` occupies the bytes
`4 + i * record_size ..< 4 + (i + 1) * record_size`, which lie within the declared
payload and hence within the block. -/
theorem reads_in_bounds :
    (∀ data : List Byte, (find_and_parse_4d42 data OStream.fresh).exn = none) ∧
    (∀ (data : List Byte) (size : Nat) (os : OStream), size ≤ data.length →
      (parse_4d42_block data size os).exn ≠ some .out_of_bounds) ∧
    (∀ block : List Byte, accepted block →
      4 + decoded_count block * sizeof_TargetInfo ≤ 4 + (declared_length block - 2) ∧
      4 + (declared_length block - 2) ≤ block.length ∧
      ∀ i, i < decoded_count block →
        4 + (i + 1) * sizeof_TargetInfo ≤ 4 + (declared_length block - 2) ∧
        (TargetInfo_at (block.drop 4) i).isSome = true ∧
        TargetInfo_at (payload_of block) i = TargetInfo_at (block.drop 4) i) := by
  refine ⟨find_exn_none, parse_in_bounds, ?_⟩
  intro block hacc
  obtain ⟨hpl, hN, hblk, hdrop⟩ := decoded_in_bounds block hacc
  refine ⟨by omega, hblk, ?_⟩
  intro i hi
  have hrec : (i + 1) * sizeof_TargetInfo ≤ decoded_count block * sizeof_TargetInfo :=
    Nat.mul_le_mul_right _ (by omega)
  refine ⟨by omega, ?_, ?_⟩
  · obtain ⟨t, ht⟩ := TargetInfo_at_some (block.drop 4) i (by
      rw [Nat.zero_add] at hdrop
      omega)
    rw [ht]
    rfl
  · rw [payload_of]
    exact TargetInfo_at_take (block.drop 4) _ i (by omega)

/-- Claim C17, at a block with one record. -/
theorem reads_in_bounds_witness :
    accepted block_one_record ∧
    4 + (declared_length block_one_record - 2) ≤ block_one_record.length ∧
    (TargetInfo_at (block_one_record.drop 4) 0).isSome = true :=
  ⟨by decide, (reads_in_bounds.2.2 block_one_record (by decide)).2.1,
    ((reads_in_bounds.2.2 block_one_record (by decide)).2.2 0 (by decide)).2.1⟩

/-- Claim C16. Through `find_and_parse_4d42` the defensive errors of the decoder
cannot be reached: the output is never the line
"Error parsing block: Not a 4D42 block" nor "Error parsing block: Invalid block size";
an output of the form "Error parsing block: " with a message has the message
"Invalid data length", and that is the only exception the decoder can throw at the
block of the first marker. -/
theorem defensive_errors_unreachable (data : List Byte) :
    (find_and_parse_4d42 data OStream.fresh).os.buf ≠
      "Error parsing block: Not a 4D42 block\n" ∧
    (find_and_parse_4d42 data OStream.fresh).os.buf ≠
      "Error parsing block: Invalid block size\n" ∧
    (∀ msg, (find_and_parse_4d42 data OStream.fresh).os.buf =
        "Error parsing block: " ++ msg ++ "\n" → msg = "Invalid data length") ∧
    (∀ i, marker_at data i → (∀ j, j < i → ¬ marker_at data j) → 4 ≤ data.length - i →
      ∀ e, (parse_4d42_block (data.drop i) (data.length - i) OStream.fresh).exn = some e →
        e = .invalid_argument "Invalid data length") := by
  have hmsg : ∀ msg, (find_and_parse_4d42 data OStream.fresh).os.buf =
      "Error parsing block: " ++ msg ++ "\n" → msg = "Invalid data length" := by
    intro msg h
    have hhead := error_line_head msg
    rw [← h] at hhead
    rcases find_output_cases data with hc | hc | hc | ⟨block, _, hc⟩
    · rw [hc] at hhead
      exact absurd hhead (by decide)
    · rw [hc] at hhead
      exact absurd hhead (by decide)
    · exact error_line_cancel msg (by rw [← h, hc])
    · rw [hc] at hhead
      rcases report_head_head block (groups_text (decoded block)) with hw | hf
      · rw [hw] at hhead
        exact absurd hhead (by decide)
      · rw [hf] at hhead
        exact absurd hhead (by decide)
  refine ⟨?_, ?_, hmsg, ?_⟩
  · intro h
    exact absurd (hmsg "Not a 4D42 block" h) (by decide)
  · intro h
    exact absurd (hmsg "Invalid block size" h) (by decide)
  · intro i hm hmin h4 e he
    rcases find_at_marker_cases data i hm hmin h4 with ⟨hrej, _⟩ | ⟨hok, _⟩
    · rw [hrej] at he
      simp only [Option.some.injEq] at he
      exact he.symm
    · rw [hok] at he
      exact absurd he (by simp)

/-- Claim C16, at the buffer `4D 42 00 00`: the decoder throws, and the exception
is "Invalid data length". -/
theorem defensive_errors_unreachable_witness :
    (parse_4d42_block (([0x4D, 0x42, 0, 0] : List Byte).drop 0)
      (([0x4D, 0x42, 0, 0] : List Byte).length - 0) OStream.fresh).exn =
      some (.invalid_argument "Invalid data length") ∧
    Exn.invalid_argument "Invalid data length" = .invalid_argument "Invalid data length" :=
  ⟨by decide,
    (defensive_errors_unreachable [0x4D, 0x42, 0, 0]).2.2.2 0 (by simp [marker_at])
      (fun j hj => absurd hj (Nat.not_lt_zero j)) (by decide)
      (.invalid_argument "Invalid data length") (by decide)⟩

/-- Claim C19. When `p` contains no adjacent pair `0x4D 0x42` (it may end in
`0x4D`) and `b` begins with `0x4D 0x42`, `find_and_parse_4d42` gives on `p ++ b`
exactly what it gives on `b`. -/
theorem leading_bytes_ignored (p b : List Byte) (rest : List Byte)
    (hp : ∀ i, ¬ marker_at p i) (hb : b = 0x4D :: 0x42 :: rest) :
    find_and_parse_4d42 (p ++ b) OStream.fresh = find_and_parse_4d42 b OStream.fresh := by
  subst hb
  have hm0 : marker_at (0x4D :: 0x42 :: rest) 0 := by simp [marker_at]
  have hmp : marker_at (p ++ 0x4D :: 0x42 :: rest) p.length := by
    constructor
    · rw [List.getElem?_append_right (Nat.le_refl _)]
      simp
    · rw [List.getElem?_append_right (Nat.le_succ _)]
      simp
  have hminp : ∀ j, j < p.length → ¬ marker_at (p ++ 0x4D :: 0x42 :: rest) j := by
    intro j hj hmark
    by_cases hj1 : j + 1 < p.length
    · apply hp j
      refine ⟨?_, ?_⟩
      · rw [← List.getElem?_append_left hj]
        exact hmark.1
      · rw [← List.getElem?_append_left hj1]
        exact hmark.2
    · have hjl : j + 1 = p.length := by omega
      have h2 := hmark.2
      rw [hjl, List.getElem?_append_right (Nat.le_refl _)] at h2
      simp at h2
  have hdrop : (p ++ 0x4D :: 0x42 :: rest).drop p.length = 0x4D :: 0x42 :: rest := by
    simp
  have hlen : (p ++ 0x4D :: 0x42 :: rest).length - p.length =
      (0x4D :: 0x42 :: rest : List Byte).length - 0 := by
    simp
  by_cases h4 : (0x4D :: 0x42 :: rest : List Byte).length - 0 < 4
  · simp only [find_and_parse_4d42]
    rw [find_incomplete parse_4d42_block _ p.length OStream.fresh hmp hminp (by omega),
      find_incomplete parse_4d42_block _ 0 OStream.fresh hm0
        (fun j hj => absurd hj (Nat.not_lt_zero j)) h4]
  · simp only [find_and_parse_4d42]
    rw [find_at_marker parse_4d42_block _ p.length OStream.fresh hmp hminp (by omega),
      find_at_marker parse_4d42_block _ 0 OStream.fresh hm0
        (fun j hj => absurd hj (Nat.not_lt_zero j)) (by omega),
      hdrop, hlen]
    rfl

/-- Claim C19, at `p = 09 4D` (ending in `0x4D`) and a block with one record. -/
theorem leading_bytes_ignored_witness :
    (∀ i, ¬ marker_at [9, 0x4D] i) ∧
    find_and_parse_4d42 ([9, 0x4D] ++ block_one_record) OStream.fresh =
      find_and_parse_4d42 block_one_record OStream.fresh :=
  ⟨by intro i; rcases i with _ | _ | i <;> simp [marker_at],
    leading_bytes_ignored [9, 0x4D] block_one_record (block_one_record.drop 2)
      (by intro i; rcases i with _ | _ | i <;> simp [marker_at]) (by decide)⟩

/-- Claim C18. In an accepted block, record `i < N` is decoded from the 29 payload
bytes that start at offset `i * record_size`, one record directly after the other
and the members directly after one another, at the offsets of `offsetof`:
`target_id` 0, `vertical_distance` 1, `lateral_distance` 3, `speed_y` 5,
`target_type` 7, `lane_number` 8, `front_spacing` 9, `front_time_interval` 11,
`speed_x` 13, `heading_angle` 15, `events` 17, `radar_x` 18, `radar_y` 22,
`blind_mark` 26, `car_length` 27, `car_width` 28.  The record is
`record_of_bytes` of those bytes, and its group in the report is made of its
members. -/
theorem record_layout (block : List Byte) (h : accepted block) (i : Nat)
    (hi : i < decoded_count block) :
    sizeof_TargetInfo = 29 ∧
    (offsetof .target_id = 0 ∧ offsetof .vertical_distance = 1 ∧
      offsetof .lateral_distance = 3 ∧ offsetof .speed_y = 5 ∧ offsetof .target_type = 7 ∧
      offsetof .lane_number = 8 ∧ offsetof .front_spacing = 9 ∧
      offsetof .front_time_interval = 11 ∧ offsetof .speed_x = 13 ∧
      offsetof .heading_angle = 15 ∧ offsetof .events = 17 ∧ offsetof .radar_x = 18 ∧
      offsetof .radar_y = 22 ∧ offsetof .blind_mark = 26 ∧ offsetof .car_length = 27 ∧
      offsetof .car_width = 28) ∧
    (∀ k, k < 29 →
      (payload_of block)[i * 29 + k]? = some ((record_bytes (payload_of block) i).getD k 0) ∧
      block[4 + (i * 29 + k)]? = some ((record_bytes (payload_of block) i).getD k 0)) ∧
    TargetInfo_at (block.drop 4) i =
      some (record_of_bytes (record_bytes (payload_of block) i)) ∧
    (decoded block)[i]? = some (record_of_bytes (record_bytes (payload_of block) i)) ∧
    (parse_4d42_block block block.length OStream.fresh).os.buf =
      report_head block ++
        ((decoded block).map fun r => unlines (target_lines r)).foldr
          (fun a b => a ++ b) "" := by
  obtain ⟨hget, hbytes, hpl, hdr⟩ := decoded_getElem? block h i hi
  refine ⟨sizeof_TargetInfo_eq, offsetof_values, ?_, ?_, ?_, ?_⟩
  · intro k hk
    have hpay := record_bytes_getD (payload_of block) i k hk hpl
    refine ⟨hpay, ?_⟩
    rw [hbytes, ← record_bytes_getD (block.drop 4) i k hk hdr, List.getElem?_drop]
  · rw [hbytes]
    exact TargetInfo_at_record (block.drop 4) i (by rw [sizeof_TargetInfo_eq]; exact hdr)
  · rw [hbytes]
    exact hget
  · rw [(report_eq block h).1, groups_text_lines]

/-- Claim C18, at a block with one record: the record read is the one the field
table gives for the 29 bytes after the header. -/
theorem record_layout_witness :
    (accepted block_one_record ∧ 0 < decoded_count block_one_record) ∧
    TargetInfo_at (block_one_record.drop 4) 0 =
      some (record_of_bytes (record_bytes (payload_of block_one_record) 0)) ∧
    record_of_bytes (record_bytes (payload_of block_one_record) 0) =
      ⟨7, 125, -1, -32768, 9, 0, 5, 10, -10, 32767, 0x0A, 67305985, 134678021, 1, 2, 3⟩ :=
  ⟨by decide, (record_layout block_one_record (by decide) 0 (by decide)).2.2.2.1, by decide⟩

/-- Claim C20. Two accepted blocks of equal length that agree on the 4 header
bytes and, for every decoded record `i < N`, on the bytes at offsets 0..17 of the
record, give the same outcome: the same report, character for character.  The
bytes of `radar_x`, `radar_y`, `blind_mark`, `car_length`, `car_width`, the
trailing bytes of the payload, the records beyond the cap and the bytes after the
payload are free to differ. -/
theorem unrendered_bytes_ignored (b1 b2 : List Byte) (h1 : accepted b1) (h2 : accepted b2)
    (_hlen : b1.length = b2.length) (hhead : ∀ k, k < 4 → b1[k]? = b2[k]?)
    (hrec : ∀ i, i < decoded_count b1 → ∀ k, k < 18 →
      b1[4 + (i * sizeof_TargetInfo + k)]? = b2[4 + (i * sizeof_TargetInfo + k)]?) :
    parse_4d42_block b1 b1.length OStream.fresh =
      parse_4d42_block b2 b2.length OStream.fresh := by
  have hdl := declared_length_congr b1 b2 hhead
  have hp1 := (decoded_in_bounds b1 h1).1
  have hp2 := (decoded_in_bounds b2 h2).1
  have hM : record_count b1 = record_count b2 := by
    rw [record_count, record_count, hp1, hp2, hdl]
  have hN : decoded_count b1 = decoded_count b2 := by
    rw [decoded_count, decoded_count, hM]
  have hhd : report_head b1 = report_head b2 := by
    rw [report_head, report_head, hM, hN]
  have hr1 := report_eq b1 h1
  have hr2 := report_eq b2 h2
  have hgroups : (decoded b1).map (fun r => unlines (target_lines r)) =
      (decoded b2).map (fun r => unlines (target_lines r)) := by
    apply List.ext_getElem?
    intro i
    rw [List.getElem?_map, List.getElem?_map]
    by_cases hi : i < decoded_count b1
    · have hd1 := decoded_getElem? b1 h1 i hi
      have hd2 := decoded_getElem? b2 h2 i (by rw [← hN]; exact hi)
      rw [hd1.1, hd2.1]
      simp only [Option.map_some']
      congr 2
      apply rendered_fields_congr
      intro k hk
      have e1 := record_bytes_getD (b1.drop 4) i k (by omega) hd1.2.2.2
      have e2 := record_bytes_getD (b2.drop 4) i k (by omega) hd2.2.2.2
      rw [List.getElem?_drop] at e1 e2
      have hagree := hrec i hi k hk
      rw [sizeof_TargetInfo_eq, e1, e2] at hagree
      exact Option.some.inj hagree
    · rw [List.getElem?_eq_none (by rw [hr1.2]; omega),
        List.getElem?_eq_none (by rw [hr2.2, ← hN]; omega)]
  rw [hr1.1, hr2.1, groups_text_lines, groups_text_lines, hgroups, hhd, hN]

/-- Claim C20, at two one-record blocks that differ in the last 11 bytes of the
record and in the bytes after the payload. -/
theorem unrendered_bytes_ignored_witness :
    (accepted block_one_record ∧ accepted block_one_record_variant ∧
      block_one_record ≠ block_one_record_variant) ∧
    parse_4d42_block block_one_record block_one_record.length OStream.fresh =
      parse_4d42_block block_one_record_variant block_one_record_variant.length
        OStream.fresh :=
  ⟨by decide,
    unrendered_bytes_ignored block_one_record block_one_record_variant (by decide)
      (by decide) (by decide) (by decide) (by decide)⟩

/-- Claim C14. For a raw value in the 16-bit range -32768..32767 the stream writes
the `%g` text of the binary64 quotient `raw / 10.0`, and that text is the sign, the
decimal numeral of `|raw| / 10` and, when `|raw| % 10` is not zero, a point and
that one digit: it denotes `raw / 10` exactly (125 gives "12.5", -1 gives "-0.1").
The quotient is the double nearest to `raw / 10`, with a 53-bit significand.
The loop body `print_target` writes each of the seven scaled members of a record
this way, on the lines Vertical, Lateral, Speed Y, Front space, Front time, Speed X
and Heading, wherever the record stands in the report.  In an accepted block the
report of `parse_4d42_block` is made of these groups, and each scaled member of
decoded record `i` is the two's-complement number of its two bytes, low byte
first, at the member's offset in the 29 bytes `block[4 + 29 * i ..]`, which puts
it in the 16-bit range. -/
theorem scaled_fields_exact (raw : Int) (hlo : -32768 ≤ raw) (hhi : raw ≤ 32767) :
    (∀ os : OStream, os.width = 0 →
      os.put_tenths raw = { os with buf := os.buf ++ fmt_g6 (div_by_ten raw) }) ∧
    fmt_g6 (div_by_ten raw) =
      (if raw < 0 then "-" else "") ++ Nat.repr (raw.natAbs / 10) ++
        (if raw.natAbs % 10 = 0 then "" else "." ++ Nat.repr (raw.natAbs % 10)) ∧
    decimal_value (Nat.repr (raw.natAbs / 10)) = raw.natAbs / 10 ∧
    decimal_value (Nat.repr (raw.natAbs % 10)) = raw.natAbs % 10 ∧
    raw.natAbs % 10 < 10 ∧
    (raw : ℚ) / 10 =
      (if raw < 0 then -1 else 1) *
        (((raw.natAbs / 10 : Nat) : ℚ) + ((raw.natAbs % 10 : Nat) : ℚ) / 10) ∧
    (raw ≠ 0 →
      (div_by_ten raw).neg = decide (raw < 0) ∧
      2 ^ 52 ≤ (div_by_ten raw).mant ∧ (div_by_ten raw).mant ≤ 2 ^ 53 ∧
      10 * (div_by_ten raw).mant ≤ raw.natAbs * 2 ^ (div_by_ten raw).shift + 5 ∧
      raw.natAbs * 2 ^ (div_by_ten raw).shift ≤ 10 * (div_by_ten raw).mant + 5) ∧
    (fmt_g6 (div_by_ten 125) = "12.5" ∧ fmt_g6 (div_by_ten (-1)) = "-0.1") ∧
    (∀ (t : TargetInfo) (os : OStream), os.basefield = .dec → os.width = 0 →
      (-32768 ≤ t.vertical_distance ∧ t.vertical_distance ≤ 32767) →
      (-32768 ≤ t.lateral_distance ∧ t.lateral_distance ≤ 32767) →
      (-32768 ≤ t.speed_y ∧ t.speed_y ≤ 32767) →
      (-32768 ≤ t.front_spacing ∧ t.front_spacing ≤ 32767) →
      (-32768 ≤ t.front_time_interval ∧ t.front_time_interval ≤ 32767) →
      (-32768 ≤ t.speed_x ∧ t.speed_x ≤ 32767) →
      (-32768 ≤ t.heading_angle ∧ t.heading_angle ≤ 32767) →
      print_target os t =
        ⟨os.buf ++ unlines
          ["Target " ++ Nat.repr t.target_id.val ++ ":",
           "  Vertical: " ++ fmt_g6 (div_by_ten t.vertical_distance) ++ " m",
           "  Lateral: " ++ fmt_g6 (div_by_ten t.lateral_distance) ++ " m",
           "  Speed Y: " ++ fmt_g6 (div_by_ten t.speed_y) ++ " m/s",
           "  Type: " ++ get_target_type t.target_type,
           "  Lane: " ++ lane_text t.lane_number,
           "  Front space: " ++ fmt_g6 (div_by_ten t.front_spacing) ++ " m",
           "  Front time: " ++ fmt_g6 (div_by_ten t.front_time_interval) ++ " s",
           "  Speed X: " ++ fmt_g6 (div_by_ten t.speed_x) ++ " m/s",
           "  Heading: " ++ fmt_g6 (div_by_ten t.heading_angle) ++ " deg",
           "  Events: 0x" ++ hex2 t.events,
           "----------------"], .dec, '0', 0⟩) ∧
    (∀ b0 b1 : Byte, -32768 ≤ s16 b0 b1 ∧ s16 b0 b1 ≤ 32767 ∧
      s16 b0 b1 % 65536 = ((b0.val + 256 * b1.val : Nat) : Int)) ∧
    (∀ block : List Byte, accepted block →
      (parse_4d42_block block block.length OStream.fresh).exn = none ∧
      (parse_4d42_block block block.length OStream.fresh).os.buf =
        report_head block ++
          ((decoded block).map fun r => (print_target OStream.fresh r).buf).foldr
            (fun a b => a ++ b) "" ∧
      ∀ i, i < decoded_count block →
        ∃ t, (decoded block)[i]? = some t ∧ TargetInfo_at (block.drop 4) i = some t ∧
          (∀ k, k < 29 →
            block[4 + (i * 29 + k)]? = some ((record_bytes (payload_of block) i).getD k 0)) ∧
          t.vertical_distance = s16 ((record_bytes (payload_of block) i).getD 1 0)
            ((record_bytes (payload_of block) i).getD 2 0) ∧
          t.lateral_distance = s16 ((record_bytes (payload_of block) i).getD 3 0)
            ((record_bytes (payload_of block) i).getD 4 0) ∧
          t.speed_y = s16 ((record_bytes (payload_of block) i).getD 5 0)
            ((record_bytes (payload_of block) i).getD 6 0) ∧
          t.front_spacing = s16 ((record_bytes (payload_of block) i).getD 9 0)
            ((record_bytes (payload_of block) i).getD 10 0) ∧
          t.front_time_interval = s16 ((record_bytes (payload_of block) i).getD 11 0)
            ((record_bytes (payload_of block) i).getD 12 0) ∧
          t.speed_x = s16 ((record_bytes (payload_of block) i).getD 13 0)
            ((record_bytes (payload_of block) i).getD 14 0) ∧
          t.heading_angle = s16 ((record_bytes (payload_of block) i).getD 15 0)
            ((record_bytes (payload_of block) i).getD 16 0) ∧
          (-32768 ≤ t.vertical_distance ∧ t.vertical_distance ≤ 32767) ∧
          (-32768 ≤ t.lateral_distance ∧ t.lateral_distance ≤ 32767) ∧
          (-32768 ≤ t.speed_y ∧ t.speed_y ≤ 32767) ∧
          (-32768 ≤ t.front_spacing ∧ t.front_spacing ≤ 32767) ∧
          (-32768 ≤ t.front_time_interval ∧ t.front_time_interval ≤ 32767) ∧
          (-32768 ≤ t.speed_x ∧ t.speed_x ≤ 32767) ∧
          (-32768 ≤ t.heading_angle ∧ t.heading_angle ≤ 32767)) := by
  have hfmt := fmt_g6_div_by_ten raw hlo hhi
  refine ⟨?_, ?_, decimal_value_repr _, decimal_value_repr _, Nat.mod_lt _ (by decide),
    tenths_value raw, fun h0 => div_by_ten_nearest raw h0 hlo hhi, ⟨by decide, by decide⟩,
    fun t os hb hw h1 h2 h3 h4 h5 h6 h7 => print_target_g6 t os hb hw h1 h2 h3 h4 h5 h6 h7,
    s16_twos_complement, ?_⟩
  · intro os hw
    rw [OStream.put_tenths, emit_width_zero os _ hw, hfmt]
  · rw [hfmt]
    rfl
  · intro block hacc
    have hrep := report_eq block hacc
    refine ⟨by rw [hrep.1], ?_, ?_⟩
    · rw [hrep.1]
      rfl
    · intro i hi
      obtain ⟨hget, hbytes, hpl, hdr⟩ := decoded_getElem? block hacc i hi
      rw [hbytes]
      refine ⟨_, hget,
        TargetInfo_at_record (block.drop 4) i (by rw [sizeof_TargetInfo_eq]; exact hdr),
        ?_, rfl, rfl, rfl, rfl, rfl, rfl, rfl, s16_range _ _, s16_range _ _, s16_range _ _,
        s16_range _ _, s16_range _ _, s16_range _ _, s16_range _ _⟩
      intro k hk
      rw [← record_bytes_getD (block.drop 4) i k hk hdr, List.getElem?_drop]

/-- Claim C14, at the least raw value, -32768, and at the record `sample_record`,
whose seven scaled members are 125, -1, -32768, 5, 10, -10 and 32767. -/
theorem scaled_fields_exact_witness :
    ((-32768 : Int) ≤ -32768 ∧ (-32768 : Int) ≤ 32767) ∧
    fmt_g6 (div_by_ten (-32768)) =
      (if (-32768 : Int) < 0 then "-" else "") ++ Nat.repr ((-32768 : Int).natAbs / 10) ++
        (if (-32768 : Int).natAbs % 10 = 0 then ""
          else "." ++ Nat.repr ((-32768 : Int).natAbs % 10)) ∧
    fmt_g6 (div_by_ten (-32768)) = "-3276.8" ∧
    (print_target OStream.fresh sample_record).buf =
      "Target 7:\n  Vertical: 12.5 m\n  Lateral: -0.1 m\n  Speed Y: -3276.8 m/s\n" ++
      "  Type: Unknown (9)\n  Lane: Invalid (0)\n  Front space: 0.5 m\n" ++
      "  Front time: 1 s\n  Speed X: -1 m/s\n  Heading: 3276.7 deg\n" ++
      "  Events: 0x0a\n----------------\n" := by
  have h := scaled_fields_exact (-32768) (by decide) (by decide)
  refine ⟨by decide, h.2.1, by decide!, ?_⟩
  rw [h.2.2.2.2.2.2.2.2.1 sample_record OStream.fresh rfl rfl (by decide) (by decide)
    (by decide) (by decide) (by decide) (by decide) (by decide)]
  decide!

end Radar4D42
